import Mathlib

set_option autoImplicit false

/-!  Verification of the WvW tracking and time-series aggregation subsystem of the
GW2API repository.  The Python source (src/app.py, src/wvw_tracker.py) is embedded
shallowly: Python dicts become association lists that preserve insertion order,
UTC instants become `Int` minute counts, fallible I/O becomes explicit file-state
values, and every function is translated clause by clause from its source.  -/

namespace GW2

/-! ## Python-dict-like association lists (insertion ordered) -/

/-- `d.get(k)`: first entry with the key, if any. -/
def dictGet {α : Type} : List (String × α) → String → Option α
  | [], _ => none
  | p :: t, k => if p.1 == k then some p.2 else dictGet t k

/-- `d[k] = v`: replace the value in place if the key exists, else append
(Python dicts keep the position of an existing key and append a new one). -/
def dictSet {α : Type} : List (String × α) → String → α → List (String × α)
  | [], k, v => [(k, v)]
  | p :: t, k, v => if p.1 == k then (k, v) :: t else p :: dictSet t k v

/-- `del d[k]`. -/
def dictDel {α : Type} (l : List (String × α)) (k : String) : List (String × α) :=
  l.filter (fun p => p.1 != k)

/-! ## Snapshot store (src/app.py lines 199–397) -/

/-- 7 days in minutes; the retention horizon of both snapshot stores
(`timedelta(days=7)` at src/app.py lines 304 and 390). -/
def retentionMinutes : Int := 7 * 1440

/-- Python `str.lower()`; all strings it is applied to here (`owner` values
such as `Red`) are ASCII, for which lowering is this character map. -/
def toLowerAscii (s : String) : String :=
  ⟨s.data.map (fun c => if c.isUpper then Char.ofNat (c.toNat + 32) else c)⟩

/-- A kills/deaths map from the remote API.  The source key casing is
inconsistent, so each colour may arrive lowercase (`red`) or capitalised
(`Red`); an absent key is `none` (src/app.py `normalize_team_data` reads both
casings with `dict.get`). -/
structure RawTeamMap where
  red : Option Nat
  redCap : Option Nat
  green : Option Nat
  greenCap : Option Nat
  blue : Option Nat
  blueCap : Option Nat
deriving DecidableEq, Repr

structure TeamVals where
  red : Nat
  green : Nat
  blue : Nat
deriving DecidableEq, Repr

/-- src/app.py lines 313–327, `normalize_team_data`: lowercase key first, the
capitalised key as fallback, `0` when neither is present. -/
def normalize_team_data (d : RawTeamMap) : TeamVals where
  red := d.red.getD (d.redCap.getD 0)
  green := d.green.getD (d.greenCap.getD 0)
  blue := d.blue.getD (d.blueCap.getD 0)

/-- Python `round(x, 2)` on the exact rational value.  (Tie-breaking conventions
differ only at exact half-ties, which no claim here exercises.) -/
def round2 (q : ℚ) : ℚ := (round (q * 100) : ℤ) / 100

structure KdrSnapshot where
  timestamp : Int
  red_kdr : ℚ
  green_kdr : ℚ
  blue_kdr : ℚ
  red_kills : Nat
  green_kills : Nat
  blue_kills : Nat
  red_deaths : Nat
  green_deaths : Nat
  blue_deaths : Nat
deriving DecidableEq, Repr

/-- The part of a fetched match that `record_kdr_snapshot` reads. -/
structure KdrFetch where
  kills : RawTeamMap
  deaths : RawTeamMap
deriving DecidableEq, Repr

/-- src/app.py lines 354–378: normalise kills and deaths, floor deaths at 1,
derive the two-decimal K/D ratios, and build the snapshot timestamped `now`. -/
def mkKdrSnapshot (m : KdrFetch) (now : Int) : KdrSnapshot :=
  let team_kills := normalize_team_data m.kills
  let d0 := normalize_team_data m.deaths
  let team_deaths : TeamVals :=
    { red := max d0.red 1, green := max d0.green 1, blue := max d0.blue 1 }
  { timestamp := now
    red_kdr := round2 ((team_kills.red : ℚ) / (team_deaths.red : ℚ))
    green_kdr := round2 ((team_kills.green : ℚ) / (team_deaths.green : ℚ))
    blue_kdr := round2 ((team_kills.blue : ℚ) / (team_deaths.blue : ℚ))
    red_kills := team_kills.red
    green_kills := team_kills.green
    blue_kills := team_kills.blue
    red_deaths := team_deaths.red
    green_deaths := team_deaths.green
    blue_deaths := team_deaths.blue }

/-- src/app.py lines 330–397, the pure core of `record_kdr_snapshot`.  The
remote fetch result is passed in: `none` models a failed fetch or missing match,
where the function returns without touching the store.  On success the snapshot
is appended and the 7-day retention filter (`s['timestamp'] > cutoff`) is
applied to that match's series before saving. -/
def record_kdr_snapshot (history : List (String × List KdrSnapshot)) (match_id : String)
    (fetched : Option KdrFetch) (now : Int) : List (String × List KdrSnapshot) :=
  match fetched with
  | none => history
  | some m =>
      let snapshot := mkKdrSnapshot m now
      let series := (dictGet history match_id).getD [] ++ [snapshot]
      let cutoff := now - retentionMinutes
      let series2 := series.filter (fun s => cutoff < s.timestamp)
      dictSet history match_id series2

/-- Per-team objective-type breakdown; the four keys the source initialises
(`{'Keep': 0, 'Tower': 0, 'Camp': 0, 'Castle': 0}`). -/
structure TypeCounts where
  keep : Nat
  tower : Nat
  camp : Nat
  castle : Nat
deriving DecidableEq, Repr

/-- One objective of a fetched match map.  `owner` is always present in the API
payload (the `.get('owner', '')` defaults in the source only cover an absent
key); `otype` models `objective.get('type', 'Unknown')`; the guild fields model
`obj.get('claimed_by')`, `obj.get('guild_name')`, `obj.get('guild_tag', '')`. -/
structure RawObjective where
  owner : String
  otype : Option String
  claimed_by : Option String
  guild_name : Option String
  guild_tag : Option String
deriving DecidableEq, Repr

/-- One map of a fetched match: `map_data['type']` plus its objectives. -/
structure RawMap where
  mtype : String
  objectives : List RawObjective
deriving DecidableEq, Repr

/-- Per-team objective totals and type breakdowns (the
`team_objectives`/`team_types` accumulators of src/app.py lines 266–272 and
2492–2497). -/
structure ActCounts where
  red_obj : Nat
  green_obj : Nat
  blue_obj : Nat
  red_t : TypeCounts
  green_t : TypeCounts
  blue_t : TypeCounts
deriving DecidableEq, Repr

def initActCounts : ActCounts :=
  { red_obj := 0, green_obj := 0, blue_obj := 0
    red_t := ⟨0, 0, 0, 0⟩, green_t := ⟨0, 0, 0, 0⟩, blue_t := ⟨0, 0, 0, 0⟩ }

/-- `if obj_type in team_types[owner]: team_types[owner][obj_type] += 1` — the
breakdown dict holds exactly the four initial keys, so only those four types
count. -/
def bumpType (t : TypeCounts) (ty : String) : TypeCounts :=
  if ty == "Keep" then { t with keep := t.keep + 1 }
  else if ty == "Tower" then { t with tower := t.tower + 1 }
  else if ty == "Camp" then { t with camp := t.camp + 1 }
  else if ty == "Castle" then { t with castle := t.castle + 1 }
  else t

/-- The body of the counting loop (src/app.py lines 274–282): lowercase the
owner, count the objective for its team, and count its type when it is one of
the four tracked types. -/
def actStep (acc : ActCounts) (o : RawObjective) : ActCounts :=
  let owner := toLowerAscii o.owner
  let ty := o.otype.getD "Unknown"
  if owner == "red" then
    { acc with red_obj := acc.red_obj + 1, red_t := bumpType acc.red_t ty }
  else if owner == "green" then
    { acc with green_obj := acc.green_obj + 1, green_t := bumpType acc.green_t ty }
  else if owner == "blue" then
    { acc with blue_obj := acc.blue_obj + 1, blue_t := bumpType acc.blue_t ty }
  else acc

/-- The nested `for map_data … for objective …` counting loops. -/
def countActivity (maps : List RawMap) : ActCounts :=
  maps.foldl (fun acc m => m.objectives.foldl actStep acc) initActCounts

structure ActSnapshot where
  timestamp : Int
  red_objectives : Nat
  green_objectives : Nat
  blue_objectives : Nat
  red_types : TypeCounts
  green_types : TypeCounts
  blue_types : TypeCounts
deriving DecidableEq, Repr

/-- src/app.py lines 284–292: the activity snapshot built from the counts,
timestamped `now`. -/
def mkActSnapshot (maps : List RawMap) (now : Int) : ActSnapshot :=
  let c := countActivity maps
  { timestamp := now
    red_objectives := c.red_obj
    green_objectives := c.green_obj
    blue_objectives := c.blue_obj
    red_types := c.red_t
    green_types := c.green_t
    blue_types := c.blue_t }

/-- src/app.py lines 243–311, the pure core of `record_activity_snapshot`;
`none` models a failed fetch (the function returns without touching the store).
Same append-then-retain-7-days shape as the KDR store. -/
def record_activity_snapshot (history : List (String × List ActSnapshot)) (match_id : String)
    (fetched : Option (List RawMap)) (now : Int) : List (String × List ActSnapshot) :=
  match fetched with
  | none => history
  | some maps =>
      let snapshot := mkActSnapshot maps now
      let series := (dictGet history match_id).getD [] ++ [snapshot]
      let cutoff := now - retentionMinutes
      let series2 := series.filter (fun s => cutoff < s.timestamp)
      dictSet history match_id series2

/-! ## Bucket reconstructor (src/app.py lines 2437–2604, `get_wvw_activity`) -/

/-- src/app.py lines 2437–2450: window → (bucket size in minutes, bucket count);
anything outside the enumerated set falls back to the 6h configuration. -/
def windowConfig (time_window : String) : Nat × Nat :=
  if time_window == "6h" then (15, 24)
  else if time_window == "24h" then (60, 24)
  else if time_window == "7d" then (6 * 60, 28)
  else (15, 24)

/-- `bucket_index = num_buckets - i - 1` (src/app.py line 2562). -/
def bucketIndex (num_buckets i : Nat) : Nat := num_buckets - i - 1

/-- `bucket_start_time = now - timedelta(minutes=bucket_index * bucket_size)`. -/
def bucketStart (now : Int) (bucket_size num_buckets i : Nat) : Int :=
  now - (bucketIndex num_buckets i : Int) * (bucket_size : Int)

/-- `bucket_end_time = now - timedelta(minutes=(bucket_index - 1) * bucket_size
if bucket_index > 0 else 0)`. -/
def bucketEnd (now : Int) (bucket_size num_buckets i : Nat) : Int :=
  if 0 < bucketIndex num_buckets i then
    now - ((bucketIndex num_buckets i - 1 : Nat) : Int) * (bucket_size : Int)
  else now

/-- Python `max(l, key=timestamp)`: the first element of maximal timestamp. -/
def latestSnapshot (l : List ActSnapshot) : Option ActSnapshot :=
  l.foldl (fun acc s =>
    match acc with
    | none => some s
    | some m => if m.timestamp < s.timestamp then some s else some m) none

/-- `f"{bucket_index * bucket_size // 60}h {bucket_index * bucket_size % 60}m ago"`. -/
def timeLabel (bucket_index bucket_size : Nat) : String :=
  toString (bucket_index * bucket_size / 60) ++ "h " ++
    toString (bucket_index * bucket_size % 60) ++ "m ago"

structure TimeBucket where
  time_label : String
  minutes_ago : Int
  timestamp : Int
  red : Nat
  green : Nat
  blue : Nat
  red_types : TypeCounts
  green_types : TypeCounts
  blue_types : TypeCounts
  total : Nat
deriving DecidableEq, Repr

/-- One iteration of the bucket loop (src/app.py lines 2561–2604): collect the
snapshots with `bucket_start ≤ timestamp < bucket_end`, use the latest of them,
or synthesise the bucket from the current (fallback) counts. -/
def makeBucket (now : Int) (bucket_size num_buckets : Nat) (series : List ActSnapshot)
    (current : ActCounts) (i : Nat) : TimeBucket :=
  let idx := bucketIndex num_buckets i
  let bStart := bucketStart now bucket_size num_buckets i
  let bEnd := bucketEnd now bucket_size num_buckets i
  let bucket_snapshots := series.filter (fun s => bStart ≤ s.timestamp && s.timestamp < bEnd)
  match latestSnapshot bucket_snapshots with
  | some s =>
      { time_label := timeLabel idx bucket_size
        minutes_ago := now - bEnd
        timestamp := bEnd
        red := s.red_objectives
        green := s.green_objectives
        blue := s.blue_objectives
        red_types := s.red_types
        green_types := s.green_types
        blue_types := s.blue_types
        total := s.red_objectives + s.green_objectives + s.blue_objectives }
  | none =>
      { time_label := timeLabel idx bucket_size
        minutes_ago := now - bEnd
        timestamp := bEnd
        red := current.red_obj
        green := current.green_obj
        blue := current.blue_obj
        red_types := current.red_t
        green_types := current.green_t
        blue_types := current.blue_t
        total := current.red_obj + current.green_obj + current.blue_obj }

/-- `for i in range(num_buckets): … timeline_buckets.append(bucket_data)`. -/
def timelineBuckets (now : Int) (bucket_size num_buckets : Nat) (series : List ActSnapshot)
    (current : ActCounts) : List TimeBucket :=
  (List.range num_buckets).map (makeBucket now bucket_size num_buckets series current)

/-! ## Guild ledger (src/wvw_tracker.py) -/

/-- The observable classes of a stored `end_time` value for the parse at
src/wvw_tracker.py lines 210–219: absent/falsy, present but raising
`ValueError`/`AttributeError` in `fromisoformat`, or parsing to an instant. -/
inductive EndTimeV where
  | missing
  | unparsable
  | valid (t : Int)
deriving DecidableEq, Repr

structure GuildClaim where
  id : String
  name : String
  tag : String
  first_seen : Int
  last_seen : Int
  objective_types : List String
  maps_seen : List String
deriving DecidableEq, Repr

structure TeamRecord where
  main_world : Option String
  main_world_id : Option Nat
  display_name : Option String
  linked_worlds : List (Nat × String)
  guilds : List (String × GuildClaim)
deriving DecidableEq, Repr

/-- `{'main_world': None, 'linked_worlds': [], 'guilds': {}}` (lines 111–113);
keys not yet written read as `none`. -/
def emptyTeamRecord : TeamRecord :=
  { main_world := none, main_world_id := none, display_name := none
    linked_worlds := [], guilds := [] }

structure TrackedMatch where
  match_id : String
  start_time : Option String
  end_time : EndTimeV
  first_seen : Int
  last_updated : Int
  world_id : Option Nat
  red : TeamRecord
  green : TeamRecord
  blue : TeamRecord
deriving DecidableEq, Repr

def getTeam (m : TrackedMatch) (c : String) : TeamRecord :=
  if c == "red" then m.red else if c == "green" then m.green else m.blue

def setTeam (m : TrackedMatch) (c : String) (t : TeamRecord) : TrackedMatch :=
  if c == "red" then { m with red := t }
  else if c == "green" then { m with green := t }
  else { m with blue := t }

/-- `match_data['worlds'][color]` as consumed at lines 121–130. -/
structure InputTeamInfo where
  main_world_name : Option String
  main_world_id : Option Nat
  display_name : Option String
  linked_worlds : List (Nat × String)
deriving DecidableEq, Repr

/-- The enriched match fed to `update_match`. -/
structure InputMatch where
  id : String
  start_time : Option String
  end_time : EndTimeV
  red_world : Option InputTeamInfo
  green_world : Option InputTeamInfo
  blue_world : Option InputTeamInfo
  maps : List RawMap
deriving DecidableEq, Repr

def getWorldInfo (md : InputMatch) (c : String) : Option InputTeamInfo :=
  if c == "red" then md.red_world
  else if c == "green" then md.green_world
  else md.blue_world

/-- Python truthiness of an optional string (`if obj.get('claimed_by') and
obj.get('guild_name')`): present and nonempty. -/
def truthy (o : Option String) : Bool :=
  match o with
  | none => false
  | some s => s != ""

abbrev Ledger := List (String × TrackedMatch)

/-- The fresh record created on first sighting of a match id (lines 102–115). -/
def newTracked (md : InputMatch) (world_id : Option Nat) (now : Int) : TrackedMatch :=
  { match_id := md.id, start_time := md.start_time, end_time := md.end_time
    first_seen := now, last_updated := now, world_id := world_id
    red := emptyTeamRecord, green := emptyTeamRecord, blue := emptyTeamRecord }

/-- Lines 121–130: for each colour present in the input's `worlds`, overwrite
the team metadata (`display_name` defaults to `main_world_name`). -/
def updateTeamMeta (m0 : TrackedMatch) (md : InputMatch) : TrackedMatch :=
  ["red", "green", "blue"].foldl (fun m c =>
    match getWorldInfo md c with
    | none => m
    | some ti =>
        let t := getTeam m c
        setTeam m c { t with
          main_world := ti.main_world_name
          main_world_id := ti.main_world_id
          display_name := ti.display_name.orElse (fun _ => ti.main_world_name)
          linked_worlds := ti.linked_worlds }) m0

/-- The record created for a newly discovered guild (lines 147–155). -/
def newGuildClaim (gid gname gtag : String) (now : Int) : GuildClaim :=
  { id := gid, name := gname, tag := gtag, first_seen := now, last_seen := now
    objective_types := [], maps_seen := [] }

/-- `if x not in l: l.append(x)` (lines 162–166). -/
def addIfMissing (l : List String) (x : String) : List String :=
  if x ∈ l then l else l ++ [x]

/-- Lines 157–166: the update applied to the (possibly just created) claim on
every sighting. -/
def touchClaim (c : GuildClaim) (now : Int) (obj_type map_type : String) : GuildClaim :=
  { c with last_seen := now
           objective_types := addIfMissing c.objective_types obj_type
           maps_seen := addIfMissing c.maps_seen map_type }

/-- Lines 145–166 on one team's guild dict: create the claim on first sight,
then apply the common sighting update.  The sighting is the pair
(map type, objective). -/
def upsertSighting (now : Int) (guilds0 : List (String × GuildClaim))
    (p : String × RawObjective) : List (String × GuildClaim) :=
  let obj := p.2
  let gid := obj.claimed_by.getD ""
  let guilds1 :=
    if (dictGet guilds0 gid).isSome then guilds0
    else guilds0 ++
      [(gid, newGuildClaim gid (obj.guild_name.getD "") (obj.guild_tag.getD "") now)]
  match dictGet guilds1 gid with
  | some c => dictSet guilds1 gid (touchClaim c now (obj.otype.getD "Unknown") p.1)
  | none => guilds1

/-- Lines 137–166, the body of the objective loop: objectives with a truthy
`claimed_by` and `guild_name` whose lowercased owner is one of the three
colours upsert a guild claim under that team. -/
def processObjective (now : Int) (map_type : String) (m : TrackedMatch)
    (obj : RawObjective) : TrackedMatch :=
  if truthy obj.claimed_by && truthy obj.guild_name then
    let owner := toLowerAscii obj.owner
    if owner == "red" || owner == "green" || owner == "blue" then
      let t := getTeam m owner
      setTeam m owner { t with guilds := upsertSighting now t.guilds (map_type, obj) }
    else m
  else m

/-- The nested `for map_data … for obj …` loops of lines 134–166. -/
def processMaps (now : Int) (m : TrackedMatch) (maps : List RawMap) : TrackedMatch :=
  maps.foldl (fun m mp => mp.objectives.foldl (processObjective now mp.mtype) m) m

/-- Lines 210–219: `end_time` is present, parses, and lies before the cutoff. -/
def removableMatch (m : TrackedMatch) (cutoff : Int) : Bool :=
  match m.end_time with
  | .valid t => t < cutoff
  | _ => false

/-- src/wvw_tracker.py lines 203–225, `cleanup_old_matches`, on the loaded
ledger value: collect the ids of removable matches, delete them, return the
pruned ledger (which the source then saves) and the count removed. -/
def cleanup_old_matches (tracked : Ledger) (days : Int) (now : Int) : Ledger × Nat :=
  let cutoff := now - days * 1440
  let to_remove := (tracked.filter (fun p => removableMatch p.2 cutoff)).map Prod.fst
  (to_remove.foldl dictDel tracked, to_remove.length)

/-- src/wvw_tracker.py lines 101–167: the create-or-merge step of
`update_match` (everything between the opportunistic cleanup and the save). -/
def merge_match (tracked : Ledger) (md : InputMatch) (world_id : Option Nat)
    (now : Int) : Ledger × TrackedMatch :=
  let base := (dictGet tracked md.id).getD (newTracked md world_id now)
  let mt1 := { base with last_updated := now }
  let mt2 := updateTeamMeta mt1 md
  let mt3 := processMaps now mt2 md.maps
  (dictSet tracked md.id mt3, mt3)

/-- src/wvw_tracker.py lines 81–171, `update_match`, on the loaded ledger
value: opportunistic expiry cleanup (grace 7 days) when more than 2 matches
are tracked, then create-or-merge. -/
def update_match_core (tracked0 : Ledger) (md : InputMatch) (world_id : Option Nat)
    (now : Int) : Ledger × TrackedMatch :=
  let tracked :=
    if 2 < tracked0.length then (cleanup_old_matches tracked0 7 now).1 else tracked0
  merge_match tracked md world_id now

/-! ## Durable file states (src/app.py lines 199–241, src/wvw_tracker.py lines 27–79) -/

/-- A store's backing file: absent, present but unparsable JSON, or parsed. -/
inductive FileState (α : Type) where
  | absent
  | corrupt
  | valid (data : α)
deriving DecidableEq, Repr

/-- src/app.py lines 207–215, `load_kdr_history`: any failure (missing file,
unparsable JSON) is caught and an empty mapping returned. -/
def load_kdr_history (fs : FileState (List (String × List KdrSnapshot))) :
    List (String × List KdrSnapshot) :=
  match fs with
  | .valid d => d
  | _ => []

/-- src/app.py lines 225–233, `load_activity_history`: same shape. -/
def load_activity_history (fs : FileState (List (String × List ActSnapshot))) :
    List (String × List ActSnapshot) :=
  match fs with
  | .valid d => d
  | _ => []

/-- src/wvw_tracker.py lines 27–51, `_load_match_data`: a missing file or a
`JSONDecodeError`/`IOError` yields an empty dict. -/
def load_match_data (fs : FileState Ledger) : Ledger :=
  match fs with
  | .valid d => d
  | _ => []

/-- The raw file write underneath `_save_match_data`; it raises `IOError` when
the modelled disk fault flag is set. -/
def writeLedgerFile (io_fails : Bool) (data : Ledger) : Except String (FileState Ledger) :=
  if io_fails then .error "IOError" else .ok (.valid data)

/-- src/wvw_tracker.py lines 53–79, `_save_match_data`: the `IOError` is caught
and only printed, so the function returns normally either way (on failure the
model keeps the previous file state). -/
def save_match_data (io_fails : Bool) (fs : FileState Ledger) (data : Ledger) :
    FileState Ledger :=
  match writeLedgerFile io_fails data with
  | .ok fs2 => fs2
  | .error _ => fs

/-- src/wvw_tracker.py lines 81–171, `update_match` at the file level:
load, opportunistic cleanup with its own save and reload (lines 97–99),
create-or-merge, save.  The `Except` result is the channel by which a failure
would be reported to the caller. -/
def update_match (io_fails : Bool) (fs : FileState Ledger) (md : InputMatch)
    (world_id : Option Nat) (now : Int) :
    Except String (FileState Ledger × TrackedMatch) :=
  let tracked0 := load_match_data fs
  let step1 : FileState Ledger × Ledger :=
    if 2 < tracked0.length then
      let fs1 := save_match_data io_fails fs (cleanup_old_matches tracked0 7 now).1
      (fs1, load_match_data fs1)
    else (fs, tracked0)
  let (tracked2, mt) := merge_match step1.2 md world_id now
  .ok (save_match_data io_fails step1.1 tracked2, mt)

/-! ## Statement-side characterisations

These definitions restate, for use in theorem statements, the selection
conditions the loops above apply; the reconstruction and merge functions above
are the translations of the source. -/

/-- The condition of lines 138 and 142 for a sighting (map type, objective) to
be booked under team `c`. -/
def eligibleSighting (c : String) (p : String × RawObjective) : Bool :=
  truthy p.2.claimed_by && truthy p.2.guild_name && (toLowerAscii p.2.owner == c)

def allSightings (maps : List RawMap) : List (String × RawObjective) :=
  maps.flatMap (fun mp => mp.objectives.map (fun o => (mp.mtype, o)))

/-- The sightings of an input match that reach team `c`'s guild dict. -/
def sightings (md : InputMatch) (c : String) : List (String × RawObjective) :=
  (allSightings md.maps).filter (eligibleSighting c)

/-- The guild ids of a sighting list (`obj['claimed_by']`). -/
def gidsOf (ps : List (String × RawObjective)) : List String :=
  ps.map (fun p => p.2.claimed_by.getD "")

/-- The objective types a sighting list books for guild `g`. -/
def typesFor (ps : List (String × RawObjective)) (g : String) : List String :=
  (ps.filter (fun p => p.2.claimed_by.getD "" == g)).map (fun p => p.2.otype.getD "Unknown")

/-- The map types a sighting list books for guild `g`. -/
def mapsFor (ps : List (String × RawObjective)) (g : String) : List String :=
  (ps.filter (fun p => p.2.claimed_by.getD "" == g)).map Prod.fst

def isColour (c : String) : Prop := c = "red" ∨ c = "green" ∨ c = "blue"

def sumTypes (t : TypeCounts) : Nat := t.keep + t.tower + t.camp + t.castle

/-! ## Concrete demonstration values -/

def fbDemo : ActCounts := { initActCounts with red_obj := 3, green_obj := 4, blue_obj := 5 }

/-- An activity snapshot 1410 minutes (23.5 hours) before the reference
instant 100000. -/
def snapDemo : ActSnapshot :=
  { timestamp := 100000 - 1410, red_objectives := 7, green_objectives := 0, blue_objectives := 0
    red_types := ⟨0, 0, 0, 0⟩, green_types := ⟨0, 0, 0, 0⟩, blue_types := ⟨0, 0, 0, 0⟩ }

/-- The kills/deaths maps of the recorded scenario: kills
`{red 10, green 5, blue 0}`, deaths `{red 2, green 0, blue 3}`. -/
def kdrDemoFetch : KdrFetch :=
  { kills := { red := some 10, redCap := none, green := some 5, greenCap := none
               blue := some 0, blueCap := none }
    deaths := { red := some 2, redCap := none, green := some 0, greenCap := none
                blue := some 3, blueCap := none } }

/-- A KDR snapshot far older than the retention horizon relative to instant 0. -/
def oldKdrSnap : KdrSnapshot := mkKdrSnapshot kdrDemoFetch (-20000)

/-- A tracked match whose `end_time` is already past at instant 0. -/
def expiredTracked : TrackedMatch :=
  { match_id := "1-2", start_time := none, end_time := .valid (-5), first_seen := 0
    last_updated := 0, world_id := none
    red := emptyTeamRecord, green := emptyTeamRecord, blue := emptyTeamRecord }

/-- A tracked match with no `end_time`, used as inert ledger filler. -/
def idleTracked (idv : String) : TrackedMatch :=
  { match_id := idv, start_time := none, end_time := .missing, first_seen := 0
    last_updated := 0, world_id := none
    red := emptyTeamRecord, green := emptyTeamRecord, blue := emptyTeamRecord }

def demoLedger2 : Ledger := [("A", idleTracked "A"), ("B", idleTracked "B")]

/-- An objective claimed by guild `G1`, owner spelled `Red` to exercise the
lowercase normalisation. -/
def demoObjective : RawObjective :=
  { owner := "Red", otype := some "Tower", claimed_by := some "G1"
    guild_name := some "Guild One", guild_tag := some "GO" }

/-- An enriched input match for `"1-2"` whose `end_time` parses to instant 0. -/
def demoInput : InputMatch :=
  { id := "1-2", start_time := none, end_time := .valid 0
    red_world := none, green_world := none, blue_world := none
    maps := [{ mtype := "Center", objectives := [demoObjective] }] }

/-- One red objective of a type outside the tracked four. -/
def demoActMaps : List RawMap :=
  [{ mtype := "Center"
     objectives := [{ owner := "red", otype := some "Mercenary", claimed_by := none
                      guild_name := none, guild_tag := none }] }]

/-- A second input for the same match sighting a different guild (`G2`) and
re-sighting `G1` on another map with a different resolved name. -/
def demoInput2 : InputMatch :=
  { id := "1-2", start_time := none, end_time := .missing
    red_world := some { main_world_name := some "World A", main_world_id := some 1001
                        display_name := none, linked_worlds := [(1002, "World B")] }
    green_world := none, blue_world := none
    maps := [{ mtype := "RedHome"
               objectives :=
                 [{ owner := "red", otype := some "Keep", claimed_by := some "G2"
                    guild_name := some "Guild Two", guild_tag := some "GT" }
                  , { owner := "Red", otype := some "Camp", claimed_by := some "G1"
                      guild_name := some "Renamed", guild_tag := some "RN" }] }] }

/-- The tracked record produced by one `update_match` call on an empty ledger
with `demoInput` at instant 5. -/
def rDemo : TrackedMatch := (update_match_core [] demoInput none 5).2

/-- The guild claim that call records for `G1`. -/
def clDemo : GuildClaim :=
  { id := "G1", name := "Guild One", tag := "GO", first_seen := 5, last_seen := 5
    objective_types := ["Tower"], maps_seen := ["Center"] }

/-! ## Statement of the ledger merge claims -/

/-- The frame contract of one `update_match` call on an already-present guild
claim: the claim keeps its id, name, tag and `first_seen`; `last_seen` is set
to `now` exactly when the guild is sighted again; the objective-type and
map-type lists are extended by exactly the newly sighted values, without
duplicates. -/
def C9Post (t : Ledger) (md : InputMatch) (wid : Option Nat) (now : Int)
    (c g : String) (cl : GuildClaim) : Prop :=
  ∃ cl', dictGet (getTeam (update_match_core t md wid now).2 c).guilds g = some cl' ∧
    dictGet (update_match_core t md wid now).1 md.id
      = some (update_match_core t md wid now).2 ∧
    cl'.id = cl.id ∧ cl'.name = cl.name ∧ cl'.tag = cl.tag ∧
    cl'.first_seen = cl.first_seen ∧
    cl'.last_seen = (if g ∈ gidsOf (sightings md c) then now else cl.last_seen) ∧
    cl'.objective_types.toFinset
      = cl.objective_types.toFinset ∪ (typesFor (sightings md c) g).toFinset ∧
    cl'.maps_seen.toFinset
      = cl.maps_seen.toFinset ∪ (mapsFor (sightings md c) g).toFinset ∧
    (cl.objective_types.Nodup → cl'.objective_types.Nodup) ∧
    (cl.maps_seen.Nodup → cl'.maps_seen.Nodup)

/-- The idempotent-upsert contract of two successive `update_match` calls with
the same match id starting from a ledger that does not yet track it: one
record is created (on the first call, `first_seen = n1`), the second call
keeps `first_seen` of the match and of every pre-existing guild claim, team
metadata is overwritten from the latest input, and each team's guild dict
holds exactly the guilds sighted by either call, with objective-type and
map-type sets the duplicate-free union of both calls' sightings. -/
def C3Post (t0 : Ledger) (md1 md2 : InputMatch) (w1 w2 : Option Nat)
    (n1 n2 : Int) : Prop :=
  let call1 := update_match_core t0 md1 w1 n1
  let r1 := call1.2
  let call2 := update_match_core call1.1 md2 w2 n2
  let r2 := call2.2
  dictGet call1.1 md1.id = some r1 ∧
  r1.first_seen = n1 ∧
  dictGet call2.1 md1.id = some r2 ∧
  r2.first_seen = n1 ∧
  (∀ c, isColour c → ∀ g cl1, dictGet (getTeam r1 c).guilds g = some cl1 →
    ∃ cl2, dictGet (getTeam r2 c).guilds g = some cl2 ∧ cl2.first_seen = cl1.first_seen) ∧
  (∀ c, isColour c → ∀ ti, getWorldInfo md2 c = some ti →
    (getTeam r2 c).main_world = ti.main_world_name ∧
    (getTeam r2 c).main_world_id = ti.main_world_id ∧
    (getTeam r2 c).display_name = ti.display_name.orElse (fun _ => ti.main_world_name) ∧
    (getTeam r2 c).linked_worlds = ti.linked_worlds) ∧
  (∀ c, isColour c → ∀ g,
    (dictGet (getTeam r2 c).guilds g).isSome = true ↔
      (g ∈ gidsOf (sightings md1 c) ∨ g ∈ gidsOf (sightings md2 c))) ∧
  (∀ c, isColour c → ∀ g cl2, dictGet (getTeam r2 c).guilds g = some cl2 →
    cl2.objective_types.toFinset
      = (typesFor (sightings md1 c) g).toFinset ∪ (typesFor (sightings md2 c) g).toFinset ∧
    cl2.maps_seen.toFinset
      = (mapsFor (sightings md1 c) g).toFinset ∪ (mapsFor (sightings md2 c) g).toFinset ∧
    cl2.objective_types.Nodup ∧ cl2.maps_seen.Nodup)

/-! ## Statement of the bucket-geometry claims -/

/-- The snapshots of `series` falling in bucket `i`'s half-open interval. -/
def inBucket (now : Int) (bucket_size num_buckets : Nat) (series : List ActSnapshot)
    (i : Nat) : List ActSnapshot :=
  series.filter (fun s => bucketStart now bucket_size num_buckets i ≤ s.timestamp &&
    s.timestamp < bucketEnd now bucket_size num_buckets i)

/-- What the reconstruction actually guarantees for bucket `i` (0 = oldest):
bucket `i` covers `[now − (N−i−1)·width, now − (N−i−2)·width)`; the newest
bucket is the degenerate interval `[now, now)`, so its end is `now` but it can
hold no snapshot; the covered intervals are contiguous (jointly
`(N−1)·width` before `now`); a bucket with snapshots carries the
maximum-timestamp snapshot in its interval, and an empty bucket carries the
supplied fallback, timestamped at the bucket's end. -/
def bucketClaims (now : Int) (bucket_size num_buckets : Nat) (series : List ActSnapshot)
    (cur : ActCounts) (i : Nat) : Prop :=
  (timelineBuckets now bucket_size num_buckets series cur)[i]?
    = some (makeBucket now bucket_size num_buckets series cur i) ∧
  bucketStart now bucket_size num_buckets i
    = now - ((num_buckets : Int) - i - 1) * bucket_size ∧
  (i + 1 = num_buckets →
    bucketStart now bucket_size num_buckets i = now ∧
    bucketEnd now bucket_size num_buckets i = now) ∧
  (i + 1 < num_buckets →
    bucketEnd now bucket_size num_buckets i
      = now - ((num_buckets : Int) - i - 2) * bucket_size ∧
    bucketEnd now bucket_size num_buckets i
      = bucketStart now bucket_size num_buckets (i + 1)) ∧
  (∀ s, latestSnapshot (inBucket now bucket_size num_buckets series i) = some s →
    s ∈ series ∧
    bucketStart now bucket_size num_buckets i ≤ s.timestamp ∧
    s.timestamp < bucketEnd now bucket_size num_buckets i ∧
    (∀ s' ∈ series,
      bucketStart now bucket_size num_buckets i ≤ s'.timestamp →
      s'.timestamp < bucketEnd now bucket_size num_buckets i →
      s'.timestamp ≤ s.timestamp) ∧
    makeBucket now bucket_size num_buckets series cur i
      = { time_label := timeLabel (bucketIndex num_buckets i) bucket_size
          minutes_ago := now - bucketEnd now bucket_size num_buckets i
          timestamp := bucketEnd now bucket_size num_buckets i
          red := s.red_objectives, green := s.green_objectives, blue := s.blue_objectives
          red_types := s.red_types, green_types := s.green_types
          blue_types := s.blue_types
          total := s.red_objectives + s.green_objectives + s.blue_objectives }) ∧
  (inBucket now bucket_size num_buckets series i = [] →
    makeBucket now bucket_size num_buckets series cur i
      = { time_label := timeLabel (bucketIndex num_buckets i) bucket_size
          minutes_ago := now - bucketEnd now bucket_size num_buckets i
          timestamp := bucketEnd now bucket_size num_buckets i
          red := cur.red_obj, green := cur.green_obj, blue := cur.blue_obj
          red_types := cur.red_t, green_types := cur.green_t, blue_types := cur.blue_t
          total := cur.red_obj + cur.green_obj + cur.blue_obj })

/-- What an empty series yields for window `w`: the enumerated window
configurations, the exact bucket count, and for every index the fallback
bucket timestamped at its bucket end, ends nondecreasing (oldest first). -/
def emptySeriesClaims (w : String) (now : Int) (cur : ActCounts) (i : Nat) : Prop :=
  windowConfig "6h" = (15, 24) ∧ windowConfig "24h" = (60, 24) ∧
  windowConfig "7d" = (360, 28) ∧
  (w ≠ "6h" → w ≠ "24h" → w ≠ "7d" → windowConfig w = (15, 24)) ∧
  (timelineBuckets now (windowConfig w).1 (windowConfig w).2 [] cur).length
    = (windowConfig w).2 ∧
  (timelineBuckets now (windowConfig w).1 (windowConfig w).2 [] cur)[i]?
    = some
      { time_label := timeLabel (bucketIndex (windowConfig w).2 i) (windowConfig w).1
        minutes_ago := now - bucketEnd now (windowConfig w).1 (windowConfig w).2 i
        timestamp := bucketEnd now (windowConfig w).1 (windowConfig w).2 i
        red := cur.red_obj, green := cur.green_obj, blue := cur.blue_obj
        red_types := cur.red_t, green_types := cur.green_t, blue_types := cur.blue_t
        total := cur.red_obj + cur.green_obj + cur.blue_obj } ∧
  (i + 1 < (windowConfig w).2 →
    bucketEnd now (windowConfig w).1 (windowConfig w).2 i ≤
      bucketEnd now (windowConfig w).1 (windowConfig w).2 (i + 1))

/-! ## Association-list lemmas -/

theorem dictGet_set_self {α : Type} (l : List (String × α)) (k : String) (v : α) :
    dictGet (dictSet l k v) k = some v := by
  induction l with
  | nil => simp [dictGet, dictSet]
  | cons p t ih =>
      by_cases h : p.1 = k
      · simp [dictSet, dictGet, h]
      · simp [dictSet, dictGet, h, ih]

theorem dictGet_set_ne {α : Type} (l : List (String × α)) (k k' : String) (v : α)
    (h : k' ≠ k) : dictGet (dictSet l k v) k' = dictGet l k' := by
  have h2 : k ≠ k' := fun hh => h hh.symm
  induction l with
  | nil => simp [dictGet, dictSet, h2]
  | cons p t ih =>
      by_cases hp : p.1 = k
      · subst hp
        simp [dictSet, dictGet, h2]
      · by_cases hp' : p.1 = k' <;> simp [dictSet, dictGet, hp, hp', ih, h]

theorem dictGet_eq_none_iff {α : Type} (l : List (String × α)) (k : String) :
    dictGet l k = none ↔ ∀ p ∈ l, p.1 ≠ k := by
  induction l with
  | nil => simp [dictGet]
  | cons p t ih =>
      by_cases h : p.1 = k <;> simp [dictGet, h, ih]

theorem dictSet_absent {α : Type} (l : List (String × α)) (k : String) (v : α)
    (h : dictGet l k = none) : dictSet l k v = l ++ [(k, v)] := by
  induction l with
  | nil => simp [dictSet]
  | cons p t ih =>
      rw [dictGet_eq_none_iff] at h
      have hp : p.1 ≠ k := h p (by simp)
      have ht : dictGet t k = none := by
        rw [dictGet_eq_none_iff]
        exact fun q hq => h q (by simp [hq])
      simp [dictSet, hp, ih ht]

theorem dictGet_append_of_none {α : Type} (l l' : List (String × α)) (k : String)
    (h : dictGet l k = none) : dictGet (l ++ l') k = dictGet l' k := by
  induction l with
  | nil => simp
  | cons p t ih =>
      rw [dictGet_eq_none_iff] at h
      have hp : p.1 ≠ k := h p (by simp)
      have ht : dictGet t k = none := by
        rw [dictGet_eq_none_iff]
        exact fun q hq => h q (by simp [hq])
      simpa [dictGet, hp] using ih ht

theorem dictGet_append_of_some {α : Type} (l l' : List (String × α)) (k : String)
    (w : α) (h : dictGet l k = some w) : dictGet (l ++ l') k = some w := by
  induction l with
  | nil => simp [dictGet] at h
  | cons p t ih =>
      by_cases hp : p.1 = k
      · simpa [dictGet, hp] using h
      · simp [dictGet, hp] at h ⊢
        exact ih h

theorem dictGet_dictDel {α : Type} (l : List (String × α)) (k k' : String) :
    dictGet (dictDel l k) k' = if k' = k then none else dictGet l k' := by
  induction l with
  | nil => simp [dictGet, dictDel]
  | cons p t ih =>
      simp only [dictDel, List.filter_cons] at ih ⊢
      by_cases hp : p.1 = k
      · have hb : (p.1 != k) = false := by simp [hp]
        rw [hb]
        simp only [Bool.false_eq_true, if_false, ih]
        by_cases hk : k' = k
        · simp [hk]
        · have hpk' : p.1 ≠ k' := by rw [hp]; exact fun hh => hk hh.symm
          simp [dictGet, hpk', hk]
      · have hb : (p.1 != k) = true := by simp [hp]
        rw [hb]
        simp only [if_true]
        by_cases hp' : p.1 = k'
        · have hk : ¬ k' = k := fun hh => hp (hp'.trans hh)
          simp [dictGet, hp', hk]
        · simp [dictGet, hp', ih]

theorem dictGet_foldl_dictDel {α : Type} (ks : List String) :
    ∀ (l : List (String × α)) (k : String),
      dictGet (ks.foldl dictDel l) k = if k ∈ ks then none else dictGet l k := by
  induction ks with
  | nil => intro l k; simp
  | cons k0 ks ih =>
      intro l k
      by_cases hk : k = k0
      · subst hk
        simp only [List.foldl_cons, ih, dictGet_dictDel]
        simp
      · simp only [List.foldl_cons, ih, dictGet_dictDel, hk, if_false]
        simp [hk]

/-! ## Generic fold lemmas -/

theorem foldl_fix {σ α β : Type} (g : σ → β) (f : σ → α → σ)
    (hf : ∀ s a, g (f s a) = g s) : ∀ (l : List α) (s : σ), g (l.foldl f s) = g s := by
  intro l
  induction l with
  | nil => intro s; rfl
  | cons a t ih => intro s; rw [List.foldl_cons, ih, hf]

theorem foldl_inv {σ α : Type} (I : σ → Prop) (f : σ → α → σ)
    (hf : ∀ s a, I s → I (f s a)) : ∀ (l : List α) (s : σ), I s → I (l.foldl f s) := by
  intro l
  induction l with
  | nil => intro s hs; exact hs
  | cons a t ih => intro s hs; exact ih _ (hf _ _ hs)

theorem foldl_filter {α β : Type} (p : α → Bool) (f : β → α → β) :
    ∀ (l : List α) (b : β),
      (l.filter p).foldl f b = l.foldl (fun x a => if p a then f x a else x) b := by
  intro l
  induction l with
  | nil => intro b; rfl
  | cons a t ih =>
      intro b
      by_cases h : p a <;> simp [List.filter_cons, h, ih]

theorem foldl_flatMap {α β σ : Type} (g : α → List β) (f : σ → β → σ) :
    ∀ (l : List α) (s : σ),
      (l.flatMap g).foldl f s = l.foldl (fun s a => (g a).foldl f s) s := by
  intro l
  induction l with
  | nil => intro s; rfl
  | cons a t ih => intro s; simp [List.flatMap_cons, List.foldl_append, ih]

/-! ## C7 — loads tolerate a missing or corrupt file -/

/-- C7: for each durable store (KDR history, activity history, guild ledger),
`load` returns an empty mapping, without raising, when the backing file is
absent or holds unparsable JSON. -/
theorem C7_load_empty_on_missing_or_corrupt :
    load_kdr_history .absent = [] ∧ load_kdr_history .corrupt = [] ∧
    load_activity_history .absent = [] ∧ load_activity_history .corrupt = [] ∧
    load_match_data .absent = [] ∧ load_match_data .corrupt = [] :=
  ⟨rfl, rfl, rfl, rfl, rfl, rfl⟩

/-! ## C2 — persistence failure is not surfaced by update_match -/

/-- C2 counterexample: with the disk fault flag set, the underlying ledger
write fails with `IOError`, yet `update_match` still returns a success result —
the claim that an I/O error is reported as a failure of the whole operation is
false on this code (`_save_match_data` catches and only logs the error). -/
theorem C2_counterexample :
    (writeLedgerFile true ((update_match_core [] demoInput none 0).1)).isOk = false ∧
    (update_match true (.valid []) demoInput none 0).isOk = true := by
  exact ⟨rfl, rfl⟩

/-- C2 amended: `update_match` never reports a persistence failure to its
caller: every call returns a success result, and when the write fails (and no
opportunistic cleanup ran) the file is left unchanged while the caller still
receives the merged record as if the operation had succeeded. -/
theorem C2_amended (io_fails : Bool) (fs : FileState Ledger) (md : InputMatch)
    (wid : Option Nat) (now : Int) :
    (update_match io_fails fs md wid now).isOk = true ∧
    (¬ 2 < (load_match_data fs).length →
      update_match true fs md wid now =
        .ok (fs, (merge_match (load_match_data fs) md wid now).2)) := by
  constructor
  · simp only [update_match]
    rfl
  · intro h
    simp [update_match, h, save_match_data, writeLedgerFile]

/-- Witness for C2 amended at a concrete input. -/
theorem C2_amended_witness :
    (update_match false (.valid demoLedger2) demoInput none 5).isOk = true ∧
    (¬ 2 < (load_match_data (.valid demoLedger2)).length →
      update_match true (.valid demoLedger2) demoInput none 5 =
        .ok (.valid demoLedger2,
          (merge_match (load_match_data (.valid demoLedger2)) demoInput none 5).2)) :=
  C2_amended false (.valid demoLedger2) demoInput none 5

/-! ## C5 — K/D normalisation and derivation -/

/-- C5: a recorded KDR snapshot is the last element of its match's stored
series; team keys are normalised to lowercase with the capitalised key as
fallback and 0 for missing keys; each stored death count is
`max(raw deaths, 1)` and each stored ratio is `round(kills / max(deaths,1), 2)`;
and on the scenario kills `{red 10, green 5, blue 0}`, deaths
`{red 2, green 0, blue 3}` the stored deaths are `{2, 1, 3}` and the ratios
`{5.0, 5.0, 0.0}`. -/
theorem C5_kdr_derivation (h : List (String × List KdrSnapshot))
    (mid : String) (m : KdrFetch) (now : Int) :
    ((dictGet (record_kdr_snapshot h mid (some m) now) mid).getD []).getLast?
        = some (mkKdrSnapshot m now) ∧
    (normalize_team_data m.kills).red = m.kills.red.getD (m.kills.redCap.getD 0) ∧
    (normalize_team_data m.kills).green = m.kills.green.getD (m.kills.greenCap.getD 0) ∧
    (normalize_team_data m.kills).blue = m.kills.blue.getD (m.kills.blueCap.getD 0) ∧
    (mkKdrSnapshot m now).red_deaths = max (normalize_team_data m.deaths).red 1 ∧
    (mkKdrSnapshot m now).green_deaths = max (normalize_team_data m.deaths).green 1 ∧
    (mkKdrSnapshot m now).blue_deaths = max (normalize_team_data m.deaths).blue 1 ∧
    (mkKdrSnapshot m now).red_kdr = round2 (((normalize_team_data m.kills).red : ℚ) /
        ((max (normalize_team_data m.deaths).red 1 : Nat) : ℚ)) ∧
    (mkKdrSnapshot m now).green_kdr = round2 (((normalize_team_data m.kills).green : ℚ) /
        ((max (normalize_team_data m.deaths).green 1 : Nat) : ℚ)) ∧
    (mkKdrSnapshot m now).blue_kdr = round2 (((normalize_team_data m.kills).blue : ℚ) /
        ((max (normalize_team_data m.deaths).blue 1 : Nat) : ℚ)) ∧
    (mkKdrSnapshot kdrDemoFetch 0).red_deaths = 2 ∧
    (mkKdrSnapshot kdrDemoFetch 0).green_deaths = 1 ∧
    (mkKdrSnapshot kdrDemoFetch 0).blue_deaths = 3 ∧
    (mkKdrSnapshot kdrDemoFetch 0).red_kdr = 5 ∧
    (mkKdrSnapshot kdrDemoFetch 0).green_kdr = 5 ∧
    (mkKdrSnapshot kdrDemoFetch 0).blue_kdr = 0 := by
  refine ⟨?_, rfl, rfl, rfl, rfl, rfl, rfl, rfl, rfl, rfl,
    by decide, by decide, by decide,
    by norm_num [mkKdrSnapshot, kdrDemoFetch, normalize_team_data, round2, round_eq],
    by norm_num [mkKdrSnapshot, kdrDemoFetch, normalize_team_data, round2, round_eq],
    by norm_num [mkKdrSnapshot, kdrDemoFetch, normalize_team_data, round2, round_eq]⟩
  simp only [record_kdr_snapshot, dictGet_set_self, Option.getD_some]
  rw [List.filter_append]
  have hpred : decide (now - retentionMinutes < (mkKdrSnapshot m now).timestamp) = true := by
    have : (mkKdrSnapshot m now).timestamp = now := rfl
    rw [this, decide_eq_true_eq, retentionMinutes]
    omega
  simp only [List.filter_cons, List.filter_nil, hpred, if_true]
  exact List.getLast?_concat _

/-! ## C4 — 7-day retention on every record -/

/-- C4: after a record that appends (successful fetch), every snapshot kept for
the recorded match is newer than `now − 7 days`, for both the KDR and the
Activity store; any previously stored snapshot older than that is absent from
the result; and a saved series is returned unchanged by the next load. -/
theorem C4_retention (histK : List (String × List KdrSnapshot))
    (histA : List (String × List ActSnapshot)) (mid : String)
    (mk : KdrFetch) (maps : List RawMap) (now : Int) :
    (∀ s ∈ (dictGet (record_kdr_snapshot histK mid (some mk) now) mid).getD [],
        now - retentionMinutes < s.timestamp) ∧
    (∀ s ∈ (dictGet (record_activity_snapshot histA mid (some maps) now) mid).getD [],
        now - retentionMinutes < s.timestamp) ∧
    (∀ s ∈ (dictGet histK mid).getD [], s.timestamp < now - retentionMinutes →
        s ∉ (dictGet (record_kdr_snapshot histK mid (some mk) now) mid).getD []) ∧
    (∀ s ∈ (dictGet histA mid).getD [], s.timestamp < now - retentionMinutes →
        s ∉ (dictGet (record_activity_snapshot histA mid (some maps) now) mid).getD []) ∧
    (∀ hist : List (String × List KdrSnapshot), load_kdr_history (.valid hist) = hist) ∧
    (∀ hist : List (String × List ActSnapshot), load_activity_history (.valid hist) = hist) := by
  refine ⟨?_, ?_, ?_, ?_, fun _ => rfl, fun _ => rfl⟩
  · intro s hs
    simp only [record_kdr_snapshot, dictGet_set_self, Option.getD_some] at hs
    rw [List.mem_filter] at hs
    exact of_decide_eq_true hs.2
  · intro s hs
    simp only [record_activity_snapshot, dictGet_set_self, Option.getD_some] at hs
    rw [List.mem_filter] at hs
    exact of_decide_eq_true hs.2
  · intro s _ hlt hmem
    simp only [record_kdr_snapshot, dictGet_set_self, Option.getD_some] at hmem
    rw [List.mem_filter] at hmem
    have := of_decide_eq_true hmem.2
    omega
  · intro s _ hlt hmem
    simp only [record_activity_snapshot, dictGet_set_self, Option.getD_some] at hmem
    rw [List.mem_filter] at hmem
    have := of_decide_eq_true hmem.2
    omega

/-- Witness for C4 at a concrete store: a snapshot 20000 minutes old is gone
from the series after recording at instant 0. -/
theorem C4_retention_witness :
    oldKdrSnap ∉
      (dictGet (record_kdr_snapshot [("1-2", [oldKdrSnap])] "1-2" (some kdrDemoFetch) 0)
        "1-2").getD [] :=
  (C4_retention [("1-2", [oldKdrSnap])] [] "1-2" kdrDemoFetch [] 0).2.2.1 oldKdrSnap
    (by simp [dictGet]) (by decide)

/-! ## C6 — cleanup removes exactly the expired matches -/

theorem foldl_dictDel_eq_filter {α : Type} (ks : List String) :
    ∀ l : List (String × α),
      ks.foldl dictDel l = l.filter (fun p => !(ks.contains p.1)) := by
  induction ks with
  | nil =>
      intro l
      simp [List.filter]
  | cons k ks ih =>
      intro l
      rw [List.foldl_cons, ih (dictDel l k), dictDel, List.filter_filter]
      apply List.filter_congr
      intro p _
      by_cases h1 : p.1 = k <;> by_cases h2 : ks.contains p.1 <;>
        simp [h1, h2, List.contains_cons]

/-- C6: `cleanup_old_matches` removes exactly the tracked matches whose
`end_time` parses and lies more than `days` days before `now`; matches with a
missing or unparsable `end_time` are never removed; the count returned is the
number removed; and the pruned ledger is what the next load of the saved file
returns. -/
theorem C6_cleanup (tracked : Ledger) (days now : Int)
    (hnd : (tracked.map Prod.fst).Nodup) :
    (cleanup_old_matches tracked days now).1 =
      tracked.filter (fun p => !removableMatch p.2 (now - days * 1440)) ∧
    (cleanup_old_matches tracked days now).2 =
      (tracked.filter (fun p => removableMatch p.2 (now - days * 1440))).length ∧
    (∀ p ∈ tracked, p.2.end_time = .missing ∨ p.2.end_time = .unparsable →
        p ∈ (cleanup_old_matches tracked days now).1) ∧
    (∀ fs : FileState Ledger,
        load_match_data (save_match_data false fs (cleanup_old_matches tracked days now).1) =
          (cleanup_old_matches tracked days now).1) := by
  have hq : ∀ p ∈ tracked,
      (((tracked.filter (fun p => removableMatch p.2 (now - days * 1440))).map
        Prod.fst).contains p.1) = removableMatch p.2 (now - days * 1440) := by
    intro p hp
    by_cases h : removableMatch p.2 (now - days * 1440)
    · have : p.1 ∈ (tracked.filter
          (fun p => removableMatch p.2 (now - days * 1440))).map Prod.fst := by
        exact List.mem_map_of_mem _ (List.mem_filter.mpr ⟨hp, h⟩)
      rw [h]
      exact List.elem_iff.mpr this
    · rw [Bool.eq_false_iff.mpr h]
      rw [Bool.eq_false_iff]
      intro hc
      rw [List.elem_iff, List.mem_map] at hc
      obtain ⟨p', hp', hfst⟩ := hc
      rw [List.mem_filter] at hp'
      have := List.inj_on_of_nodup_map hnd hp'.1 hp hfst
      rw [this] at hp'
      exact h hp'.2
  have h1 : (cleanup_old_matches tracked days now).1 =
      tracked.filter (fun p => !removableMatch p.2 (now - days * 1440)) := by
    show (((tracked.filter (fun p => removableMatch p.2 (now - days * 1440))).map
        Prod.fst).foldl dictDel tracked) = _
    rw [foldl_dictDel_eq_filter]
    apply List.filter_congr
    intro p hp
    rw [hq p hp]
  refine ⟨h1, ?_, ?_, fun _ => rfl⟩
  · show (((tracked.filter _).map Prod.fst).length) = _
    rw [List.length_map]
  · intro p hp he
    rw [h1, List.mem_filter]
    refine ⟨hp, ?_⟩
    rcases he with he | he <;> simp [removableMatch, he]

/-- Witness for C6: `cleanup_old_matches(0)` on a ledger holding one match
whose `end_time` is in the past removes it and returns 1. -/
theorem C6_cleanup_witness :
    (cleanup_old_matches [("1-2", expiredTracked)] 0 0).1 = [] ∧
    (cleanup_old_matches [("1-2", expiredTracked)] 0 0).2 = 1 := by
  have h := C6_cleanup [("1-2", expiredTracked)] 0 0 (by simp)
  exact ⟨by rw [h.1]; rfl, by rw [h.2.1]; rfl⟩

/-! ## C10 — per-type breakdown bounded by the team total -/

theorem sumTypes_bumpType (t : TypeCounts) (ty : String) :
    sumTypes (bumpType t ty) ≤ sumTypes t + 1 := by
  rw [bumpType]
  split
  · simp [sumTypes]; omega
  · split
    · simp [sumTypes]; omega
    · split
      · simp [sumTypes]; omega
      · split
        · simp [sumTypes]; omega
        · simp [sumTypes]

theorem actStep_bounds (acc : ActCounts) (o : RawObjective)
    (h : sumTypes acc.red_t ≤ acc.red_obj ∧ sumTypes acc.green_t ≤ acc.green_obj ∧
      sumTypes acc.blue_t ≤ acc.blue_obj) :
    sumTypes (actStep acc o).red_t ≤ (actStep acc o).red_obj ∧
    sumTypes (actStep acc o).green_t ≤ (actStep acc o).green_obj ∧
    sumTypes (actStep acc o).blue_t ≤ (actStep acc o).blue_obj := by
  obtain ⟨hr, hg, hb⟩ := h
  rw [actStep]
  split
  · have := sumTypes_bumpType acc.red_t (o.otype.getD "Unknown")
    refine ⟨by simp; omega, by simpa using hg, by simpa using hb⟩
  · split
    · have := sumTypes_bumpType acc.green_t (o.otype.getD "Unknown")
      refine ⟨by simpa using hr, by simp; omega, by simpa using hb⟩
    · split
      · have := sumTypes_bumpType acc.blue_t (o.otype.getD "Unknown")
        refine ⟨by simpa using hr, by simpa using hg, by simp; omega⟩
      · exact ⟨hr, hg, hb⟩

/-- C10: in every recorded activity snapshot, each team's four per-type counts
are non-negative and their sum is at most that team's total objective count;
and the sum can be strictly smaller (an objective of an untracked type counts
toward the total only). -/
theorem C10_activity_type_bounds (maps : List RawMap) (now : Int) :
    (0 ≤ (mkActSnapshot maps now).red_types.keep ∧
      0 ≤ (mkActSnapshot maps now).red_types.tower ∧
      0 ≤ (mkActSnapshot maps now).red_types.camp ∧
      0 ≤ (mkActSnapshot maps now).red_types.castle) ∧
    sumTypes (mkActSnapshot maps now).red_types ≤ (mkActSnapshot maps now).red_objectives ∧
    sumTypes (mkActSnapshot maps now).green_types ≤ (mkActSnapshot maps now).green_objectives ∧
    sumTypes (mkActSnapshot maps now).blue_types ≤ (mkActSnapshot maps now).blue_objectives ∧
    sumTypes (mkActSnapshot demoActMaps 0).red_types <
      (mkActSnapshot demoActMaps 0).red_objectives := by
  have main : ∀ ms : List RawMap,
      sumTypes (countActivity ms).red_t ≤ (countActivity ms).red_obj ∧
      sumTypes (countActivity ms).green_t ≤ (countActivity ms).green_obj ∧
      sumTypes (countActivity ms).blue_t ≤ (countActivity ms).blue_obj := by
    intro ms
    refine foldl_inv
      (fun acc => sumTypes acc.red_t ≤ acc.red_obj ∧ sumTypes acc.green_t ≤ acc.green_obj ∧
        sumTypes acc.blue_t ≤ acc.blue_obj)
      (fun acc m => m.objectives.foldl actStep acc) ?_ ms initActCounts (by decide)
    intro acc m hacc
    exact foldl_inv _ actStep (fun s o hs => actStep_bounds s o hs) m.objectives acc hacc
  exact ⟨⟨Nat.zero_le _, Nat.zero_le _, Nat.zero_le _, Nat.zero_le _⟩,
    (main maps).1, (main maps).2.1, (main maps).2.2, by decide⟩

/-! ## Bucket reconstruction lemmas -/

theorem latestSnapshot_aux :
    ∀ (l : List ActSnapshot) (acc : Option ActSnapshot) (m : ActSnapshot),
      l.foldl (fun acc s =>
        match acc with
        | none => some s
        | some mm => if mm.timestamp < s.timestamp then some s else some mm) acc = some m →
      (acc = some m ∨ m ∈ l) ∧ (∀ x ∈ l, x.timestamp ≤ m.timestamp) ∧
        (∀ a, acc = some a → a.timestamp ≤ m.timestamp) := by
  intro l
  induction l with
  | nil =>
      intro acc m h
      simp only [List.foldl_nil] at h
      refine ⟨Or.inl h, by simp, ?_⟩
      intro a ha
      rw [h] at ha
      cases ha
      exact le_refl _
  | cons s t ih =>
      intro acc m h
      simp only [List.foldl_cons] at h
      rcases hA : acc with _ | a
      · subst hA
        obtain ⟨h1, h2, h3⟩ := ih (some s) m h
        refine ⟨?_, ?_, ?_⟩
        · rcases h1 with h1 | h1
          · cases h1
            exact Or.inr (List.mem_cons_self _ _)
          · exact Or.inr (List.mem_cons_of_mem _ h1)
        · intro x hx
          rcases List.mem_cons.mp hx with hx | hx
          · subst hx
            exact h3 x rfl
          · exact h2 x hx
        · intro a ha
          cases ha
      · subst hA
        have h2' : t.foldl (fun acc s =>
            match acc with
            | none => some s
            | some mm => if mm.timestamp < s.timestamp then some s else some mm)
            (if a.timestamp < s.timestamp then some s else some a) = some m := h
        by_cases hlt : a.timestamp < s.timestamp
        · rw [if_pos hlt] at h2'
          obtain ⟨h1, h2, h3⟩ := ih (some s) m h2'
          refine ⟨?_, ?_, ?_⟩
          · rcases h1 with h1 | h1
            · cases h1
              exact Or.inr (List.mem_cons_self _ _)
            · exact Or.inr (List.mem_cons_of_mem _ h1)
          · intro x hx
            rcases List.mem_cons.mp hx with hx | hx
            · subst hx
              exact h3 x rfl
            · exact h2 x hx
          · intro a' ha'
            cases ha'
            exact (le_of_lt hlt).trans (h3 s rfl)
        · rw [if_neg hlt] at h2'
          obtain ⟨h1, h2, h3⟩ := ih (some a) m h2'
          refine ⟨?_, ?_, ?_⟩
          · rcases h1 with h1 | h1
            · exact Or.inl h1
            · exact Or.inr (List.mem_cons_of_mem _ h1)
          · intro x hx
            rcases List.mem_cons.mp hx with hx | hx
            · subst hx
              exact (le_of_not_lt hlt).trans (h3 a rfl)
            · exact h2 x hx
          · intro a' ha'
            cases ha'
            exact h3 _ rfl

theorem latestSnapshot_some {l : List ActSnapshot} {m : ActSnapshot}
    (h : latestSnapshot l = some m) :
    m ∈ l ∧ ∀ x ∈ l, x.timestamp ≤ m.timestamp := by
  obtain ⟨h1, h2, _⟩ := latestSnapshot_aux l none m h
  rcases h1 with h1 | h1
  · cases h1
  · exact ⟨h1, h2⟩

/-! ## C8 — empty series: window configuration and fallback buckets -/

/-- C8: for every window value, the reconstruction over an empty series yields
exactly the configured bucket count (24 for 6h, 24 for 24h, 28 for 7d, the 6h
configuration otherwise), each bucket carrying the supplied fallback values
with timestamp equal to its bucket end, ordered oldest to newest. -/
theorem C8_empty_series (w : String) (now : Int) (cur : ActCounts) (i : Nat)
    (hi : i < (windowConfig w).2) : emptySeriesClaims w now cur i := by
  refine ⟨rfl, rfl, rfl, ?_, ?_, ?_, ?_⟩
  · intro h6 h24 h7
    simp [windowConfig, h6, h24, h7]
  · simp [timelineBuckets]
  · rw [timelineBuckets, List.getElem?_map, List.getElem?_range hi]
    rfl
  · intro hlt
    rw [bucketEnd, bucketEnd, bucketIndex, bucketIndex]
    have h1 : 0 < (windowConfig w).2 - i - 1 := by omega
    rw [if_pos h1]
    by_cases h2 : 0 < (windowConfig w).2 - (i + 1) - 1
    · rw [if_pos h2]
      have hc : (((windowConfig w).2 - (i + 1) - 1 - 1 : ℕ) : ℤ) ≤
          (((windowConfig w).2 - i - 1 - 1 : ℕ) : ℤ) := by omega
      have hs : (0 : ℤ) ≤ ((windowConfig w).1 : ℤ) := Int.natCast_nonneg _
      have := mul_le_mul_of_nonneg_right hc hs
      omega
    · rw [if_neg h2]
      have hc : (0 : ℤ) ≤ (((windowConfig w).2 - i - 1 - 1 : ℕ) : ℤ) := Int.natCast_nonneg _
      have hs : (0 : ℤ) ≤ ((windowConfig w).1 : ℤ) := Int.natCast_nonneg _
      have := mul_nonneg hc hs
      omega

/-- Witness for C8 at the unrecognised window value `1h` and index 0. -/
theorem C8_empty_series_witness :
    0 < (windowConfig "1h").2 ∧ emptySeriesClaims "1h" 0 initActCounts 0 :=
  ⟨by decide, C8_empty_series "1h" 0 initActCounts 0 (by decide)⟩

/-! ## C1 — bucket interval geometry and fill rule -/

/-- C1 counterexample: for window `24h` (width 60, 24 buckets) the claim places
the oldest bucket over `[now − 24·60, now − 23·60)`.  The snapshot `snapDemo`
lies in that interval with a red count of 7, yet the code's oldest bucket
carries the fallback red count 3: the snapshot falls outside every bucket the
code builds, so the claimed interval layout is false. -/
theorem C1_counterexample :
    windowConfig "24h" = (60, 24) ∧
    (100000 - 24 * 60 ≤ snapDemo.timestamp ∧ snapDemo.timestamp < 100000 - 23 * 60) ∧
    snapDemo.red_objectives = 7 ∧ fbDemo.red_obj = 3 ∧
    ((timelineBuckets 100000 60 24 [snapDemo] fbDemo)[0]?).map (fun b => b.red)
      = some 3 := by
  exact ⟨rfl, by decide, rfl, rfl, by decide⟩

/-- C1 amended: bucket `i` (0 = oldest) covers
`[now − (N−i−1)·width, now − (N−i−2)·width)`; the newest bucket is the
degenerate interval `[now, now)` (its end is `now`, and it always falls back
to the current values), so the buckets jointly cover `(N−1)·width` before
`now` — for `24h`, the prior 23 hours; a bucket holding snapshots carries the
maximum-timestamp snapshot of its interval, an empty one the fallback
timestamped at its bucket end. -/
theorem C1_amended (now : Int) (bucket_size num_buckets : Nat)
    (series : List ActSnapshot) (cur : ActCounts) (i : Nat) (hi : i < num_buckets) :
    bucketClaims now bucket_size num_buckets series cur i := by
  refine ⟨?_, ?_, ?_, ?_, ?_, ?_⟩
  · rw [timelineBuckets, List.getElem?_map, List.getElem?_range hi]
    rfl
  · rw [bucketStart, bucketIndex]
    have hc : ((num_buckets - i - 1 : ℕ) : ℤ) = (num_buckets : ℤ) - i - 1 := by omega
    rw [hc]
  · intro hN
    have hz : num_buckets - i - 1 = 0 := by omega
    rw [bucketStart, bucketEnd, bucketIndex, hz]
    norm_num
  · intro hlt
    have h1 : 0 < num_buckets - i - 1 := by omega
    have h2 : num_buckets - (i + 1) - 1 = num_buckets - i - 2 := by omega
    have hc : ((num_buckets - i - 1 - 1 : ℕ) : ℤ) = (num_buckets : ℤ) - i - 2 := by omega
    have hc2 : ((num_buckets - i - 2 : ℕ) : ℤ) = (num_buckets : ℤ) - i - 2 := by omega
    constructor
    · rw [bucketEnd, bucketIndex, if_pos h1, hc]
    · rw [bucketEnd, bucketStart, bucketIndex, bucketIndex, if_pos h1, hc, h2, hc2]
  · intro s hs
    obtain ⟨hmem, hmax⟩ := latestSnapshot_some hs
    rw [inBucket, List.mem_filter] at hmem
    have hin := hmem.2
    rw [Bool.and_eq_true, decide_eq_true_eq, decide_eq_true_eq] at hin
    refine ⟨hmem.1, hin.1, hin.2, ?_, ?_⟩
    · intro s' hs' hge hlt
      exact hmax s' (by
        rw [inBucket, List.mem_filter]
        exact ⟨hs', by rw [Bool.and_eq_true, decide_eq_true_eq, decide_eq_true_eq]
                       exact ⟨hge, hlt⟩⟩)
    · rw [makeBucket]
      rw [inBucket] at hs
      rw [hs]
  · intro hempty
    rw [makeBucket]
    rw [inBucket] at hempty
    rw [hempty]
    rfl

/-- Witness for C1 amended at window `24h` geometry, oldest bucket, one
snapshot. -/
theorem C1_amended_witness :
    0 < 24 ∧ bucketClaims 100000 60 24 [snapDemo] fbDemo 0 :=
  ⟨by decide, C1_amended 100000 60 24 [snapDemo] fbDemo 0 (by decide)⟩

/-! ## Guild upsert step lemmas -/

theorem dictGet_some_mem {α : Type} (l : List (String × α)) (k : String) (v : α)
    (h : dictGet l k = some v) : (k, v) ∈ l := by
  induction l with
  | nil => simp [dictGet] at h
  | cons p t ih =>
      by_cases hp : p.1 = k
      · simp only [dictGet, hp, beq_self_eq_true, if_true, Option.some_inj] at h
        subst h
        rw [← hp]
        exact List.mem_cons_self _ _
      · simp only [dictGet, beq_iff_eq, hp, if_false] at h
        exact List.mem_cons_of_mem _ (ih h)

theorem dictGet_append_single_ne {α : Type} (l : List (String × α)) (k g : String)
    (v : α) (h : g ≠ k) : dictGet (l ++ [(k, v)]) g = dictGet l g := by
  cases hl : dictGet l g with
  | some w => exact dictGet_append_of_some l _ g w hl
  | none =>
      rw [dictGet_append_of_none l _ g hl]
      have h2 : k ≠ g := fun hh => h hh.symm
      simp [dictGet, h2]

theorem dictGet_append_single_self {α : Type} (l : List (String × α)) (k : String)
    (v : α) (h : dictGet l k = none) : dictGet (l ++ [(k, v)]) k = some v := by
  rw [dictGet_append_of_none l _ k h]
  simp [dictGet]

theorem dictSet_append_single {α : Type} (l : List (String × α)) (k : String)
    (w v : α) (h : dictGet l k = none) :
    dictSet (l ++ [(k, w)]) k v = l ++ [(k, v)] := by
  induction l with
  | nil => simp [dictSet]
  | cons p t ih =>
      rw [dictGet_eq_none_iff] at h
      have hp : p.1 ≠ k := h p (by simp)
      have ht : dictGet t k = none := by
        rw [dictGet_eq_none_iff]
        exact fun q hq => h q (by simp [hq])
      simp [dictSet, hp, ih ht]

theorem upsertSighting_eq_of_some (now : Int) (G : List (String × GuildClaim))
    (p : String × RawObjective) (c : GuildClaim)
    (h : dictGet G (p.2.claimed_by.getD "") = some c) :
    upsertSighting now G p =
      dictSet G (p.2.claimed_by.getD "")
        (touchClaim c now (p.2.otype.getD "Unknown") p.1) := by
  rw [upsertSighting]
  simp only [h, Option.isSome_some, if_true]

theorem upsertSighting_eq_of_none (now : Int) (G : List (String × GuildClaim))
    (p : String × RawObjective)
    (h : dictGet G (p.2.claimed_by.getD "") = none) :
    upsertSighting now G p =
      G ++ [(p.2.claimed_by.getD "",
        touchClaim (newGuildClaim (p.2.claimed_by.getD "") (p.2.guild_name.getD "")
          (p.2.guild_tag.getD "") now) now (p.2.otype.getD "Unknown") p.1)] := by
  rw [upsertSighting]
  simp only [h, Option.isSome_none, Bool.false_eq_true, if_false]
  rw [dictGet_append_single_self G _ _ h]
  exact dictSet_append_single G _ _ _ h

theorem upsertSighting_ne (now : Int) (G : List (String × GuildClaim))
    (p : String × RawObjective) (g : String) (h : g ≠ p.2.claimed_by.getD "") :
    dictGet (upsertSighting now G p) g = dictGet G g := by
  cases hG : dictGet G (p.2.claimed_by.getD "") with
  | some c =>
      rw [upsertSighting_eq_of_some now G p c hG, dictGet_set_ne _ _ _ _ h]
  | none =>
      rw [upsertSighting_eq_of_none now G p hG, dictGet_append_single_ne _ _ _ _ h]

/-! ## addIfMissing and claim-field lemmas -/

theorem toFinset_addIfMissing (l : List String) (x : String) :
    (addIfMissing l x).toFinset = insert x l.toFinset := by
  rw [addIfMissing]
  by_cases h : x ∈ l
  · rw [if_pos h]
    exact (Finset.insert_eq_self.mpr (List.mem_toFinset.mpr h)).symm
  · rw [if_neg h]
    ext a
    simp [or_comm]

theorem nodup_addIfMissing (l : List String) (x : String) (h : l.Nodup) :
    (addIfMissing l x).Nodup := by
  rw [addIfMissing]
  by_cases hx : x ∈ l
  · rw [if_pos hx]
    exact h
  · rw [if_neg hx]
    refine List.Nodup.append h (List.nodup_singleton x) ?_
    intro a ha hax
    have hax2 : a = x := by simpa using hax
    subst hax2
    exact hx ha

theorem touchClaim_id (c : GuildClaim) (now : Int) (oty mty : String) :
    (touchClaim c now oty mty).id = c.id := rfl

theorem touchClaim_name (c : GuildClaim) (now : Int) (oty mty : String) :
    (touchClaim c now oty mty).name = c.name := rfl

theorem touchClaim_tag (c : GuildClaim) (now : Int) (oty mty : String) :
    (touchClaim c now oty mty).tag = c.tag := rfl

theorem touchClaim_first_seen (c : GuildClaim) (now : Int) (oty mty : String) :
    (touchClaim c now oty mty).first_seen = c.first_seen := rfl

theorem touchClaim_last_seen (c : GuildClaim) (now : Int) (oty mty : String) :
    (touchClaim c now oty mty).last_seen = now := rfl

theorem touchClaim_objective_types (c : GuildClaim) (now : Int) (oty mty : String) :
    (touchClaim c now oty mty).objective_types = addIfMissing c.objective_types oty := rfl

theorem touchClaim_maps_seen (c : GuildClaim) (now : Int) (oty mty : String) :
    (touchClaim c now oty mty).maps_seen = addIfMissing c.maps_seen mty := rfl

/-! ## The guild-fold characterisation -/

theorem gidsOf_cons (p : String × RawObjective) (ps : List (String × RawObjective)) :
    gidsOf (p :: ps) = p.2.claimed_by.getD "" :: gidsOf ps := rfl

theorem typesFor_cons_eq (p : String × RawObjective) (ps : List (String × RawObjective))
    (g : String) (h : p.2.claimed_by.getD "" = g) :
    typesFor (p :: ps) g = (p.2.otype.getD "Unknown") :: typesFor ps g := by
  rw [typesFor, typesFor, List.filter_cons, if_pos (by simp [h])]
  rfl

theorem typesFor_cons_ne (p : String × RawObjective) (ps : List (String × RawObjective))
    (g : String) (h : ¬ p.2.claimed_by.getD "" = g) :
    typesFor (p :: ps) g = typesFor ps g := by
  rw [typesFor, typesFor, List.filter_cons, if_neg (by simp [h])]

theorem mapsFor_cons_eq (p : String × RawObjective) (ps : List (String × RawObjective))
    (g : String) (h : p.2.claimed_by.getD "" = g) :
    mapsFor (p :: ps) g = p.1 :: mapsFor ps g := by
  rw [mapsFor, mapsFor, List.filter_cons, if_pos (by simp [h])]
  rfl

theorem mapsFor_cons_ne (p : String × RawObjective) (ps : List (String × RawObjective))
    (g : String) (h : ¬ p.2.claimed_by.getD "" = g) :
    mapsFor (p :: ps) g = mapsFor ps g := by
  rw [mapsFor, mapsFor, List.filter_cons, if_neg (by simp [h])]

theorem insert_union_comm (a : String) (A B : Finset String) :
    insert a A ∪ B = A ∪ insert a B := by
  ext x
  simp

theorem upsert_fold_char (now : Int) (g : String) :
    ∀ (ps : List (String × RawObjective)) (G : List (String × GuildClaim)),
      (∀ c, dictGet G g = some c →
        ∃ c', dictGet (ps.foldl (upsertSighting now) G) g = some c' ∧
          c'.id = c.id ∧ c'.name = c.name ∧ c'.tag = c.tag ∧
          c'.first_seen = c.first_seen ∧
          c'.last_seen = (if g ∈ gidsOf ps then now else c.last_seen) ∧
          c'.objective_types.toFinset
            = c.objective_types.toFinset ∪ (typesFor ps g).toFinset ∧
          c'.maps_seen.toFinset = c.maps_seen.toFinset ∪ (mapsFor ps g).toFinset ∧
          (c.objective_types.Nodup → c'.objective_types.Nodup) ∧
          (c.maps_seen.Nodup → c'.maps_seen.Nodup)) ∧
      (dictGet G g = none → g ∉ gidsOf ps →
        dictGet (ps.foldl (upsertSighting now) G) g = none) ∧
      (dictGet G g = none → g ∈ gidsOf ps →
        ∃ c', dictGet (ps.foldl (upsertSighting now) G) g = some c' ∧
          c'.id = g ∧ c'.first_seen = now ∧ c'.last_seen = now ∧
          c'.objective_types.toFinset = (typesFor ps g).toFinset ∧
          c'.maps_seen.toFinset = (mapsFor ps g).toFinset ∧
          c'.objective_types.Nodup ∧ c'.maps_seen.Nodup) := by
  intro ps
  induction ps with
  | nil =>
      intro G
      refine ⟨?_, ?_, ?_⟩
      · intro c hc
        exact ⟨c, hc, rfl, rfl, rfl, rfl, by simp [gidsOf], by simp [typesFor],
          by simp [mapsFor], fun h => h, fun h => h⟩
      · intro h _
        exact h
      · intro _ hmem
        simp [gidsOf] at hmem
  | cons p ps ih =>
      intro G
      by_cases hpg : p.2.claimed_by.getD "" = g
      · -- the head sighting is for guild g
        have hING : g ∈ gidsOf (p :: ps) := by
          rw [gidsOf_cons, hpg]
          exact List.mem_cons_self _ _
        refine ⟨?_, ?_, ?_⟩
        · intro c hc
          have hcg : dictGet G (p.2.claimed_by.getD "") = some c := by
            rw [hpg]
            exact hc
          have hup : dictGet (upsertSighting now G p) g =
              some (touchClaim c now (p.2.otype.getD "Unknown") p.1) := by
            rw [upsertSighting_eq_of_some now G p c hcg, ← hpg, dictGet_set_self]
          obtain ⟨c', hget, hid, hname, htag, hfs, hls, hty, hmp, hnd1, hnd2⟩ :=
            (ih (upsertSighting now G p)).1 _ hup
          rw [List.foldl_cons]
          rw [touchClaim_id] at hid
          rw [touchClaim_name] at hname
          rw [touchClaim_tag] at htag
          rw [touchClaim_first_seen] at hfs
          rw [touchClaim_last_seen] at hls
          rw [touchClaim_objective_types, toFinset_addIfMissing] at hty
          rw [touchClaim_maps_seen, toFinset_addIfMissing] at hmp
          rw [touchClaim_objective_types] at hnd1
          rw [touchClaim_maps_seen] at hnd2
          refine ⟨c', hget, hid, hname, htag, hfs, ?_, ?_, ?_, ?_, ?_⟩
          · rw [hls, if_pos hING, ite_self]
          · rw [hty, typesFor_cons_eq p ps g hpg, List.toFinset_cons]
            exact insert_union_comm _ _ _
          · rw [hmp, mapsFor_cons_eq p ps g hpg, List.toFinset_cons]
            exact insert_union_comm _ _ _
          · intro hh
            exact hnd1 (nodup_addIfMissing _ _ hh)
          · intro hh
            exact hnd2 (nodup_addIfMissing _ _ hh)
        · intro _ hmem
          exact absurd hING hmem
        · intro hnone _
          have hcg : dictGet G (p.2.claimed_by.getD "") = none := by
            rw [hpg]
            exact hnone
          have hup : dictGet (upsertSighting now G p) g =
              some (touchClaim (newGuildClaim (p.2.claimed_by.getD "")
                (p.2.guild_name.getD "") (p.2.guild_tag.getD "") now) now
                (p.2.otype.getD "Unknown") p.1) := by
            rw [upsertSighting_eq_of_none now G p hcg, ← hpg]
            exact dictGet_append_single_self G _ _ hcg
          obtain ⟨c', hget, hid, _, _, hfs, hls, hty, hmp, hnd1, hnd2⟩ :=
            (ih (upsertSighting now G p)).1 _ hup
          rw [List.foldl_cons]
          rw [touchClaim_id] at hid
          rw [touchClaim_first_seen] at hfs
          rw [touchClaim_last_seen] at hls
          rw [touchClaim_objective_types, toFinset_addIfMissing] at hty
          rw [touchClaim_maps_seen, toFinset_addIfMissing] at hmp
          refine ⟨c', hget, ?_, ?_, ?_, ?_, ?_, ?_, ?_⟩
          · rw [hid, ← hpg]
            rfl
          · rw [hfs]
            rfl
          · rw [hls, ite_self]
          · rw [hty, typesFor_cons_eq p ps g hpg, List.toFinset_cons]
            have hempty : (newGuildClaim (p.2.claimed_by.getD "")
                (p.2.guild_name.getD "") (p.2.guild_tag.getD "") now).objective_types
                = [] := rfl
            rw [hempty]
            ext x
            simp
          · rw [hmp, mapsFor_cons_eq p ps g hpg, List.toFinset_cons]
            have hempty : (newGuildClaim (p.2.claimed_by.getD "")
                (p.2.guild_name.getD "") (p.2.guild_tag.getD "") now).maps_seen
                = [] := rfl
            rw [hempty]
            ext x
            simp
          · refine hnd1 ?_
            rw [touchClaim_objective_types]
            exact nodup_addIfMissing _ _ List.nodup_nil
          · refine hnd2 ?_
            rw [touchClaim_maps_seen]
            exact nodup_addIfMissing _ _ List.nodup_nil
      · -- the head sighting is for another guild
        have hgne : g ≠ p.2.claimed_by.getD "" := fun hh => hpg hh.symm
        have hget : dictGet (upsertSighting now G p) g = dictGet G g :=
          upsertSighting_ne now G p g hgne
        have hmemiff : (g ∈ gidsOf (p :: ps)) = (g ∈ gidsOf ps) := by
          rw [gidsOf_cons]
          simp [List.mem_cons, hgne]
        refine ⟨?_, ?_, ?_⟩
        · intro c hc
          obtain ⟨c', hg', hid, hname, htag, hfs, hls, hty, hmp, hnd1, hnd2⟩ :=
            (ih (upsertSighting now G p)).1 c (by rw [hget]; exact hc)
          rw [List.foldl_cons]
          refine ⟨c', hg', hid, hname, htag, hfs, ?_, ?_, ?_, hnd1, hnd2⟩
          · rw [hls]
            simp only [hmemiff]
          · rw [hty, typesFor_cons_ne p ps g hpg]
          · rw [hmp, mapsFor_cons_ne p ps g hpg]
        · intro hnone hmem
          rw [List.foldl_cons]
          exact (ih (upsertSighting now G p)).2.1 (by rw [hget]; exact hnone)
            (by rw [← hmemiff]; exact hmem)
        · intro hnone hmem
          obtain ⟨c', hg', hid, hfs, hls, hty, hmp, hnd1, hnd2⟩ :=
            (ih (upsertSighting now G p)).2.2 (by rw [hget]; exact hnone)
              (by rw [← hmemiff]; exact hmem)
          rw [List.foldl_cons]
          refine ⟨c', hg', hid, hfs, hls, ?_, ?_, hnd1, hnd2⟩
          · rw [hty, typesFor_cons_ne p ps g hpg]
          · rw [hmp, mapsFor_cons_ne p ps g hpg]

/-! ## Team projection lemmas -/

theorem getTeam_setTeam (m : TrackedMatch) (t : TeamRecord) (c c' : String)
    (hc : isColour c) (hc' : isColour c') :
    getTeam (setTeam m c t) c' = if c = c' then t else getTeam m c' := by
  rcases hc with rfl | rfl | rfl <;> rcases hc' with rfl | rfl | rfl <;>
    simp [getTeam, setTeam]

theorem setTeam_frame (m : TrackedMatch) (c : String) (t : TeamRecord) :
    (setTeam m c t).match_id = m.match_id ∧ (setTeam m c t).start_time = m.start_time ∧
    (setTeam m c t).end_time = m.end_time ∧ (setTeam m c t).first_seen = m.first_seen ∧
    (setTeam m c t).last_updated = m.last_updated ∧
    (setTeam m c t).world_id = m.world_id := by
  rw [setTeam]
  split
  · exact ⟨rfl, rfl, rfl, rfl, rfl, rfl⟩
  · split
    · exact ⟨rfl, rfl, rfl, rfl, rfl, rfl⟩
    · exact ⟨rfl, rfl, rfl, rfl, rfl, rfl⟩

theorem getTeam_processObjective (now : Int) (mt : String) (m : TrackedMatch)
    (o : RawObjective) (c : String) (hc : isColour c) :
    getTeam (processObjective now mt m o) c =
      { getTeam m c with guilds :=
          if eligibleSighting c (mt, o)
          then upsertSighting now (getTeam m c).guilds (mt, o)
          else (getTeam m c).guilds } := by
  by_cases hel : eligibleSighting c (mt, o) = true
  · rw [if_pos hel]
    have hels := hel
    rw [eligibleSighting] at hels
    simp only [Bool.and_eq_true, beq_iff_eq] at hels
    obtain ⟨⟨ht1, ht2⟩, howc⟩ := hels
    rw [processObjective, if_pos (by simp [ht1, ht2])]
    rw [if_pos (by
      rw [howc]
      rcases hc with rfl | rfl | rfl <;> simp)]
    rw [howc, getTeam_setTeam m _ c c hc hc, if_pos rfl]
  · rw [if_neg hel]
    have hrhs : ({ getTeam m c with guilds := (getTeam m c).guilds } : TeamRecord)
        = getTeam m c := rfl
    rw [hrhs, processObjective]
    by_cases h1 : (truthy o.claimed_by && truthy o.guild_name) = true
    · rw [if_pos h1]
      by_cases h2 : (toLowerAscii o.owner == "red" || toLowerAscii o.owner == "green"
          || toLowerAscii o.owner == "blue") = true
      · rw [if_pos h2]
        have h1s : truthy o.claimed_by = true ∧ truthy o.guild_name = true := by
          simpa using h1
        have hownc : ¬ toLowerAscii o.owner = c := fun hh => hel (by
          rw [eligibleSighting]
          simp [h1s.1, h1s.2, hh])
        have howner : isColour (toLowerAscii o.owner) := by
          have h2s : toLowerAscii o.owner = "red" ∨ toLowerAscii o.owner = "green"
              ∨ toLowerAscii o.owner = "blue" := by
            simpa [or_assoc] using h2
          exact h2s
        rw [getTeam_setTeam m _ _ c howner hc, if_neg hownc]
      · rw [if_neg h2]
    · rw [if_neg h1]

theorem getTeam_foldl_objs (now : Int) (mt : String) (c : String) (hc : isColour c) :
    ∀ (objs : List RawObjective) (m : TrackedMatch),
      getTeam (objs.foldl (processObjective now mt) m) c =
        { getTeam m c with guilds :=
            (objs.foldl (fun G o =>
              if eligibleSighting c (mt, o) then upsertSighting now G (mt, o) else G)
              (getTeam m c).guilds) } := by
  intro objs
  induction objs with
  | nil => intro m; rfl
  | cons o objs ih =>
      intro m
      rw [List.foldl_cons, List.foldl_cons, ih, getTeam_processObjective now mt m o c hc]

theorem getTeam_processMaps (now : Int) (m : TrackedMatch) (maps : List RawMap)
    (c : String) (hc : isColour c) :
    getTeam (processMaps now m maps) c =
      { getTeam m c with guilds :=
          (((allSightings maps).filter (eligibleSighting c)).foldl (upsertSighting now)
            (getTeam m c).guilds) } := by
  rw [foldl_filter, allSightings, foldl_flatMap]
  rw [processMaps]
  induction maps generalizing m with
  | nil => rfl
  | cons mp maps ih =>
      rw [List.foldl_cons, List.foldl_cons, ih, List.foldl_map,
        getTeam_foldl_objs now mp.mtype c hc]

theorem processObjective_frame (now : Int) (mt : String) (m : TrackedMatch)
    (o : RawObjective) :
    (processObjective now mt m o).match_id = m.match_id ∧
    (processObjective now mt m o).start_time = m.start_time ∧
    (processObjective now mt m o).end_time = m.end_time ∧
    (processObjective now mt m o).first_seen = m.first_seen ∧
    (processObjective now mt m o).last_updated = m.last_updated ∧
    (processObjective now mt m o).world_id = m.world_id := by
  by_cases h1 : (truthy o.claimed_by && truthy o.guild_name) = true
  · by_cases h2 : (toLowerAscii o.owner == "red" || toLowerAscii o.owner == "green"
        || toLowerAscii o.owner == "blue") = true
    · have he : processObjective now mt m o = setTeam m (toLowerAscii o.owner)
          { getTeam m (toLowerAscii o.owner) with guilds :=
              (upsertSighting now (getTeam m (toLowerAscii o.owner)).guilds (mt, o)) } := by
        simp only [processObjective]
        rw [if_pos h1, if_pos h2]
      rw [he]
      exact setTeam_frame m _ _
    · have he : processObjective now mt m o = m := by
        simp only [processObjective]
        rw [if_pos h1, if_neg h2]
      rw [he]
      exact ⟨rfl, rfl, rfl, rfl, rfl, rfl⟩
  · have he : processObjective now mt m o = m := by
      simp only [processObjective]
      rw [if_neg h1]
    rw [he]
    exact ⟨rfl, rfl, rfl, rfl, rfl, rfl⟩

theorem processMaps_frame (now : Int) (m : TrackedMatch) (maps : List RawMap) :
    (processMaps now m maps).match_id = m.match_id ∧
    (processMaps now m maps).start_time = m.start_time ∧
    (processMaps now m maps).end_time = m.end_time ∧
    (processMaps now m maps).first_seen = m.first_seen ∧
    (processMaps now m maps).last_updated = m.last_updated ∧
    (processMaps now m maps).world_id = m.world_id := by
  rw [processMaps]
  refine foldl_inv (fun x => x.match_id = m.match_id ∧ x.start_time = m.start_time ∧
    x.end_time = m.end_time ∧ x.first_seen = m.first_seen ∧
    x.last_updated = m.last_updated ∧ x.world_id = m.world_id)
    _ ?_ maps m ⟨rfl, rfl, rfl, rfl, rfl, rfl⟩
  intro x mp hx
  refine foldl_inv (fun y => y.match_id = m.match_id ∧ y.start_time = m.start_time ∧
    y.end_time = m.end_time ∧ y.first_seen = m.first_seen ∧
    y.last_updated = m.last_updated ∧ y.world_id = m.world_id)
    _ ?_ mp.objectives x hx
  intro y o hy
  obtain ⟨f1, f2, f3, f4, f5, f6⟩ := processObjective_frame now mp.mtype y o
  exact ⟨f1.trans hy.1, f2.trans hy.2.1, f3.trans hy.2.2.1, f4.trans hy.2.2.2.1,
    f5.trans hy.2.2.2.2.1, f6.trans hy.2.2.2.2.2⟩

/-! ## Team metadata and merge lemmas -/

theorem getTeam_withLast (m : TrackedMatch) (x : Int) (c : String) :
    getTeam { m with last_updated := x } c = getTeam m c := rfl

theorem getTeam_newTracked (md : InputMatch) (w : Option Nat) (now : Int)
    (c : String) : getTeam (newTracked md w now) c = emptyTeamRecord := by
  rw [newTracked, getTeam]
  split
  · rfl
  · split
    · rfl
    · rfl

theorem getTeam_updateTeamMeta (m : TrackedMatch) (md : InputMatch) (c : String)
    (hc : isColour c) :
    getTeam (updateTeamMeta m md) c =
      (match getWorldInfo md c with
       | none => getTeam m c
       | some ti =>
          { getTeam m c with
            main_world := ti.main_world_name
            main_world_id := ti.main_world_id
            display_name := ti.display_name.orElse (fun _ => ti.main_world_name)
            linked_worlds := ti.linked_worlds }) := by
  rcases hc with rfl | rfl | rfl <;>
    rcases hr : md.red_world with _ | tr <;>
    rcases hg : md.green_world with _ | tg <;>
    rcases hb : md.blue_world with _ | tb <;>
      simp [updateTeamMeta, getWorldInfo, hr, hg, hb, getTeam, setTeam]

theorem updateTeamMeta_frame (m : TrackedMatch) (md : InputMatch) :
    (updateTeamMeta m md).match_id = m.match_id ∧
    (updateTeamMeta m md).start_time = m.start_time ∧
    (updateTeamMeta m md).end_time = m.end_time ∧
    (updateTeamMeta m md).first_seen = m.first_seen ∧
    (updateTeamMeta m md).last_updated = m.last_updated ∧
    (updateTeamMeta m md).world_id = m.world_id := by
  rcases hr : md.red_world with _ | tr <;>
    rcases hg : md.green_world with _ | tg <;>
    rcases hb : md.blue_world with _ | tb <;>
      simp [updateTeamMeta, getWorldInfo, hr, hg, hb, setTeam]

theorem foldl_dictDel_sublist {α : Type} (ks : List String) :
    ∀ l : List (String × α), (ks.foldl dictDel l).Sublist l := by
  induction ks with
  | nil => intro l; exact List.Sublist.refl l
  | cons k ks ih =>
      intro l
      rw [List.foldl_cons]
      exact (ih (dictDel l k)).trans (List.filter_sublist l)

theorem cleanup_nodup (t : Ledger) (days now : Int)
    (hnd : (t.map Prod.fst).Nodup) :
    ((cleanup_old_matches t days now).1.map Prod.fst).Nodup := by
  have hsub : (cleanup_old_matches t days now).1.Sublist t := foldl_dictDel_sublist _ t
  exact List.Nodup.sublist (hsub.map Prod.fst) hnd

theorem cleanup_preserves_entry (t : Ledger) (days now : Int) (k : String)
    (r : TrackedMatch) (hnd : (t.map Prod.fst).Nodup) (hk : dictGet t k = some r)
    (hr : removableMatch r (now - days * 1440) = false) :
    dictGet (cleanup_old_matches t days now).1 k = some r := by
  have hnotmem : k ∉ (t.filter
      (fun p => removableMatch p.2 (now - days * 1440))).map Prod.fst := by
    intro hcmem
    rw [List.mem_map] at hcmem
    obtain ⟨p, hp, hfst⟩ := hcmem
    rw [List.mem_filter] at hp
    have hpr : p = (k, r) :=
      List.inj_on_of_nodup_map hnd hp.1 (dictGet_some_mem t k r hk) (by rw [hfst])
    rw [hpr] at hp
    rw [hp.2] at hr
    cases hr
  show dictGet (((t.filter
      (fun p => removableMatch p.2 (now - days * 1440))).map Prod.fst).foldl dictDel t) k
    = some r
  rw [dictGet_foldl_dictDel, if_neg hnotmem]
  exact hk

theorem cleanup_preserves_none (t : Ledger) (days now : Int) (k : String)
    (hk : dictGet t k = none) :
    dictGet (cleanup_old_matches t days now).1 k = none := by
  show dictGet (((t.filter
      (fun p => removableMatch p.2 (now - days * 1440))).map Prod.fst).foldl dictDel t) k
    = none
  rw [dictGet_foldl_dictDel]
  split
  · rfl
  · exact hk

theorem merge_match_of_some (t : Ledger) (md : InputMatch) (w : Option Nat)
    (now : Int) (r : TrackedMatch) (h : dictGet t md.id = some r) :
    (merge_match t md w now).2 =
      processMaps now (updateTeamMeta { r with last_updated := now } md) md.maps ∧
    (merge_match t md w now).1 = dictSet t md.id (merge_match t md w now).2 := by
  constructor
  · simp only [merge_match, h, Option.getD_some]
  · simp only [merge_match]

theorem merge_match_of_none (t : Ledger) (md : InputMatch) (w : Option Nat)
    (now : Int) (h : dictGet t md.id = none) :
    (merge_match t md w now).2 =
      processMaps now (updateTeamMeta { newTracked md w now with last_updated := now }
        md) md.maps ∧
    (merge_match t md w now).1 = t ++ [(md.id, (merge_match t md w now).2)] := by
  constructor
  · simp only [merge_match, h, Option.getD_none]
  · have h1 : (merge_match t md w now).1 = dictSet t md.id (merge_match t md w now).2 := by
      simp only [merge_match]
    rw [h1, dictSet_absent t md.id _ h]

/-! ## C9 — existing guild claims are only extended, never rewritten -/

/-- C9 counterexample: with three tracked matches and the match's `end_time`
more than 7 days past, the opportunistic cleanup inside `update_match` removes
the whole match before the merge, so the recreated claim for `G1` has
`first_seen` 10081 instead of the original 5: as stated (over every call), the
claim is false. -/
theorem C9_counterexample :
    ((dictGet (getTeam (update_match_core demoLedger2 demoInput none 5).2 "red").guilds
        "G1").map (fun cl => cl.first_seen)) = some 5 ∧
    ((dictGet (getTeam (update_match_core
        (update_match_core demoLedger2 demoInput none 5).1
        demoInput none 10081).2 "red").guilds "G1").map (fun cl => cl.first_seen))
      = some 10081 := by
  exact ⟨by decide, by decide⟩

/-- C9 amended: provided the opportunistic expiry cleanup does not remove the
match (at most 2 matches tracked, or its `end_time` not yet 7 days past), an
existing guild claim keeps its id, name, tag and `first_seen` through any
`update_match` call; only `last_seen` is refreshed and the objective-type and
map-type lists extended, without duplicates, by the newly sighted values. -/
theorem C9_amended (t : Ledger) (md : InputMatch) (wid : Option Nat) (now : Int)
    (c g : String) (cl : GuildClaim) (r : TrackedMatch)
    (hnd : (t.map Prod.fst).Nodup)
    (hr : dictGet t md.id = some r)
    (hc : isColour c)
    (hcl : dictGet (getTeam r c).guilds g = some cl)
    (hguard : ¬ 2 < t.length ∨ removableMatch r (now - 7 * 1440) = false) :
    C9Post t md wid now c g cl := by
  have hT : dictGet (if 2 < t.length then (cleanup_old_matches t 7 now).1 else t) md.id
      = some r := by
    by_cases hlen : 2 < t.length
    · rw [if_pos hlen]
      rcases hguard with hg1 | hg2
      · exact absurd hlen hg1
      · exact cleanup_preserves_entry t 7 now md.id r hnd hr hg2
    · rw [if_neg hlen]
      exact hr
  have hcore : update_match_core t md wid now =
      merge_match (if 2 < t.length then (cleanup_old_matches t 7 now).1 else t)
        md wid now := rfl
  have h2 := merge_match_of_some _ md wid now r hT
  have hmeta : (getTeam (updateTeamMeta { r with last_updated := now } md) c).guilds
      = (getTeam r c).guilds := by
    rw [getTeam_updateTeamMeta _ md c hc]
    cases hW : getWorldInfo md c <;> simp [getTeam_withLast]
  have hguilds : (getTeam (update_match_core t md wid now).2 c).guilds =
      (sightings md c).foldl (upsertSighting now) ((getTeam r c).guilds) := by
    rw [hcore, h2.1, getTeam_processMaps now _ md.maps c hc]
    show ((allSightings md.maps).filter (eligibleSighting c)).foldl (upsertSighting now)
      ((getTeam (updateTeamMeta { r with last_updated := now } md) c).guilds) = _
    rw [hmeta, sightings]
  obtain ⟨cl', hcl', hid, hname, htag, hfs, hls, hty, hmp, hnd1, hnd2⟩ :=
    (upsert_fold_char now g (sightings md c) ((getTeam r c).guilds)).1 cl hcl
  refine ⟨cl', ?_, ?_, hid, hname, htag, hfs, hls, hty, hmp, hnd1, hnd2⟩
  · rw [hguilds]
    exact hcl'
  · rw [hcore, h2.2]
    exact dictGet_set_self _ _ _

/-- Witness for C9 amended: one tracked match, re-sighting of guild `G1`. -/
theorem C9_amended_witness :
    dictGet [("1-2", rDemo)] "1-2" = some rDemo ∧
    C9Post [("1-2", rDemo)] demoInput none 9 "red" "G1" clDemo :=
  ⟨by decide,
    C9_amended [("1-2", rDemo)] demoInput none 9 "red" "G1" clDemo rDemo
      (by decide) (by decide) (Or.inl rfl) (by decide) (Or.inl (by decide))⟩

/-! ## Single-call characterisations of update_match_core -/

theorem not_mem_keys_of_dictGet_none {α : Type} (l : List (String × α)) (k : String)
    (h : dictGet l k = none) : k ∉ l.map Prod.fst := by
  intro hm
  rw [List.mem_map] at hm
  obtain ⟨p, hp, hfst⟩ := hm
  rw [dictGet_eq_none_iff] at h
  exact h p hp hfst

theorem sightFor_nil_of_not_mem (ps : List (String × RawObjective)) (g : String)
    (h : g ∉ gidsOf ps) : typesFor ps g = [] ∧ mapsFor ps g = [] := by
  have hfil : ps.filter (fun p => p.2.claimed_by.getD "" == g) = [] := by
    rw [List.filter_eq_nil_iff]
    intro p hp
    simp only [beq_iff_eq]
    intro hpg
    apply h
    rw [gidsOf, List.mem_map]
    exact ⟨p, hp, hpg⟩
  constructor
  · rw [typesFor, hfil]
    rfl
  · rw [mapsFor, hfil]
    rfl

theorem update_core_unseen (t : Ledger) (md : InputMatch) (w : Option Nat) (now : Int)
    (hnd : (t.map Prod.fst).Nodup) (hnone : dictGet t md.id = none) :
    dictGet (update_match_core t md w now).1 md.id
      = some (update_match_core t md w now).2 ∧
    (update_match_core t md w now).2.first_seen = now ∧
    (∀ c, isColour c → (getTeam (update_match_core t md w now).2 c).guilds =
      (sightings md c).foldl (upsertSighting now) []) ∧
    ((update_match_core t md w now).1.map Prod.fst).Nodup := by
  have h0none : dictGet (if 2 < t.length then (cleanup_old_matches t 7 now).1 else t)
      md.id = none := by
    by_cases hlen : 2 < t.length
    · rw [if_pos hlen]
      exact cleanup_preserves_none t 7 now md.id hnone
    · rw [if_neg hlen]
      exact hnone
  have hnd0 : ((if 2 < t.length then (cleanup_old_matches t 7 now).1 else t).map
      Prod.fst).Nodup := by
    by_cases hlen : 2 < t.length
    · rw [if_pos hlen]
      exact cleanup_nodup t 7 now hnd
    · rw [if_neg hlen]
      exact hnd
  have hcore : update_match_core t md w now =
      merge_match (if 2 < t.length then (cleanup_old_matches t 7 now).1 else t)
        md w now := rfl
  have hm := merge_match_of_none
    (if 2 < t.length then (cleanup_old_matches t 7 now).1 else t) md w now h0none
  have hnew : ({ newTracked md w now with last_updated := now } : TrackedMatch)
      = newTracked md w now := rfl
  refine ⟨?_, ?_, ?_, ?_⟩
  · rw [hcore]
    have h1 : (merge_match
        (if 2 < t.length then (cleanup_old_matches t 7 now).1 else t) md w now).1 =
        dictSet (if 2 < t.length then (cleanup_old_matches t 7 now).1 else t) md.id
          (merge_match
            (if 2 < t.length then (cleanup_old_matches t 7 now).1 else t) md w now).2 := by
      simp only [merge_match]
    rw [h1]
    exact dictGet_set_self _ _ _
  · rw [hcore, hm.1, hnew]
    obtain ⟨_, _, _, hfs, _, _⟩ :=
      processMaps_frame now (updateTeamMeta (newTracked md w now) md) md.maps
    rw [hfs]
    obtain ⟨_, _, _, hfs2, _, _⟩ := updateTeamMeta_frame (newTracked md w now) md
    rw [hfs2]
    rfl
  · intro c hc
    rw [hcore, hm.1, hnew, getTeam_processMaps now _ md.maps c hc]
    show ((allSightings md.maps).filter (eligibleSighting c)).foldl (upsertSighting now)
      ((getTeam (updateTeamMeta (newTracked md w now) md) c).guilds) = _
    have hg : (getTeam (updateTeamMeta (newTracked md w now) md) c).guilds = [] := by
      rw [getTeam_updateTeamMeta _ md c hc]
      cases hW : getWorldInfo md c <;> simp [getTeam_newTracked, emptyTeamRecord]
    rw [hg, sightings]
  · rw [hcore, hm.2, List.map_append]
    refine List.Nodup.append hnd0 (List.nodup_singleton _) ?_
    intro a ha hb
    have hab : a = md.id := by simpa using hb
    subst hab
    exact not_mem_keys_of_dictGet_none _ _ h0none ha

theorem update_core_seen (t : Ledger) (md : InputMatch) (w : Option Nat) (now : Int)
    (r : TrackedMatch)
    (hnd : (t.map Prod.fst).Nodup) (hr : dictGet t md.id = some r)
    (hguard : ¬ 2 < t.length ∨ removableMatch r (now - 7 * 1440) = false) :
    dictGet (update_match_core t md w now).1 md.id
      = some (update_match_core t md w now).2 ∧
    (update_match_core t md w now).2.first_seen = r.first_seen ∧
    (∀ c, isColour c → (getTeam (update_match_core t md w now).2 c).guilds =
      (sightings md c).foldl (upsertSighting now) ((getTeam r c).guilds)) ∧
    (∀ c, isColour c → ∀ ti, getWorldInfo md c = some ti →
      (getTeam (update_match_core t md w now).2 c).main_world = ti.main_world_name ∧
      (getTeam (update_match_core t md w now).2 c).main_world_id = ti.main_world_id ∧
      (getTeam (update_match_core t md w now).2 c).display_name
        = ti.display_name.orElse (fun _ => ti.main_world_name) ∧
      (getTeam (update_match_core t md w now).2 c).linked_worlds = ti.linked_worlds) := by
  have hT : dictGet (if 2 < t.length then (cleanup_old_matches t 7 now).1 else t) md.id
      = some r := by
    by_cases hlen : 2 < t.length
    · rw [if_pos hlen]
      rcases hguard with hg1 | hg2
      · exact absurd hlen hg1
      · exact cleanup_preserves_entry t 7 now md.id r hnd hr hg2
    · rw [if_neg hlen]
      exact hr
  have hcore : update_match_core t md w now =
      merge_match (if 2 < t.length then (cleanup_old_matches t 7 now).1 else t)
        md w now := rfl
  have h2 := merge_match_of_some
    (if 2 < t.length then (cleanup_old_matches t 7 now).1 else t) md w now r hT
  refine ⟨?_, ?_, ?_, ?_⟩
  · rw [hcore, h2.2]
    exact dictGet_set_self _ _ _
  · rw [hcore, h2.1]
    obtain ⟨_, _, _, hfs, _, _⟩ :=
      processMaps_frame now (updateTeamMeta { r with last_updated := now } md) md.maps
    rw [hfs]
    obtain ⟨_, _, _, hfs2, _, _⟩ := updateTeamMeta_frame { r with last_updated := now } md
    rw [hfs2]
  · intro c hc
    rw [hcore, h2.1, getTeam_processMaps now _ md.maps c hc]
    show ((allSightings md.maps).filter (eligibleSighting c)).foldl (upsertSighting now)
      ((getTeam (updateTeamMeta { r with last_updated := now } md) c).guilds) = _
    have hmeta : (getTeam (updateTeamMeta { r with last_updated := now } md) c).guilds
        = (getTeam r c).guilds := by
      rw [getTeam_updateTeamMeta _ md c hc]
      cases hW : getWorldInfo md c <;> simp [getTeam_withLast]
    rw [hmeta, sightings]
  · intro c hc ti hti
    have hmw : getTeam (updateTeamMeta { r with last_updated := now } md) c =
        { getTeam { r with last_updated := now } c with
          main_world := ti.main_world_name
          main_world_id := ti.main_world_id
          display_name := ti.display_name.orElse (fun _ => ti.main_world_name)
          linked_worlds := ti.linked_worlds } := by
      rw [getTeam_updateTeamMeta _ md c hc, hti]
    have hteam : getTeam (update_match_core t md w now).2 c =
        { getTeam (updateTeamMeta { r with last_updated := now } md) c with guilds :=
            (((allSightings md.maps).filter (eligibleSighting c)).foldl
              (upsertSighting now)
              ((getTeam (updateTeamMeta { r with last_updated := now } md) c).guilds)) } := by
      rw [hcore, h2.1]
      exact getTeam_processMaps now _ md.maps c hc
    rw [hteam, hmw]
    exact ⟨rfl, rfl, rfl, rfl⟩

/-! ## C3 — idempotent upsert over two calls -/

/-- C3 counterexample: starting from two other tracked matches, the first call
creates `"1-2"` with `first_seen` 5; on the second call (at 10081, with the
match's `end_time` then more than 7 days past and 3 matches tracked) the
opportunistic cleanup removes and recreates the match, so its `first_seen`
becomes 10081 — the claim that the second call leaves `first_seen` unchanged is
false as stated. -/
theorem C3_counterexample :
    dictGet demoLedger2 "1-2" = none ∧
    (update_match_core demoLedger2 demoInput none 5).2.first_seen = 5 ∧
    (update_match_core (update_match_core demoLedger2 demoInput none 5).1
        demoInput none 10081).2.first_seen = 10081 := by
  exact ⟨rfl, by decide, by decide⟩

/-- C3 amended: starting from a ledger with unique keys that does not yet track
the match, and provided the second call's opportunistic cleanup does not remove
it (at most 2 matches tracked after the first call, or the match's `end_time`
not yet 7 days past at the second call), two `update_match` calls with the same
match id behave as the idempotent upsert the claim describes: created once with
`first_seen = n1`, `first_seen` of the match and of pre-existing guild claims
unchanged by the second call, team metadata overwritten from the second input,
and per-team guild mappings equal to the union of both calls' sightings with
duplicate-free unions of the objective-type and map-type sets. -/
theorem C3_amended (t0 : Ledger) (md1 md2 : InputMatch) (w1 w2 : Option Nat)
    (n1 n2 : Int)
    (hnd : (t0.map Prod.fst).Nodup)
    (hid : md2.id = md1.id)
    (hunseen : dictGet t0 md1.id = none)
    (hguard : ¬ 2 < (update_match_core t0 md1 w1 n1).1.length ∨
      removableMatch (update_match_core t0 md1 w1 n1).2 (n2 - 7 * 1440) = false) :
    C3Post t0 md1 md2 w1 w2 n1 n2 := by
  obtain ⟨ha1, hb1, hg1, hd1⟩ := update_core_unseen t0 md1 w1 n1 hnd hunseen
  obtain ⟨ha2, hb2, hg2, hm2⟩ := update_core_seen (update_match_core t0 md1 w1 n1).1
    md2 w2 n2 (update_match_core t0 md1 w1 n1).2 hd1 (by rw [hid]; exact ha1) hguard
  rw [hid] at ha2
  refine ⟨ha1, hb1, ha2, hb2.trans hb1, ?_, ?_, ?_, ?_⟩
  · -- pre-existing guild claims keep first_seen
    intro c hc g cl1 hcl1
    obtain ⟨cl2, hcl2, _, _, _, hfs, _⟩ :=
      (upsert_fold_char n2 g (sightings md2 c)
        ((getTeam (update_match_core t0 md1 w1 n1).2 c).guilds)).1 cl1 hcl1
    rw [hg2 c hc]
    exact ⟨cl2, hcl2, hfs⟩
  · -- team metadata from the second input
    exact hm2
  · -- guild key sets are the union of both calls' sightings
    intro c hc g
    have hG1 : (getTeam (update_match_core t0 md1 w1 n1).2 c).guilds =
        (sightings md1 c).foldl (upsertSighting n1) [] := hg1 c hc
    rw [hg2 c hc, hG1]
    by_cases hin1 : g ∈ gidsOf (sightings md1 c)
    · obtain ⟨cl1, hcl1, _⟩ :=
        (upsert_fold_char n1 g (sightings md1 c) []).2.2 rfl hin1
      obtain ⟨cl2, hcl2, _⟩ :=
        (upsert_fold_char n2 g (sightings md2 c) _).1 cl1 hcl1
      rw [hcl2]
      simp [hin1]
    · have hG1none : dictGet ((sightings md1 c).foldl (upsertSighting n1) []) g = none :=
        (upsert_fold_char n1 g (sightings md1 c) []).2.1 rfl hin1
      by_cases hin2 : g ∈ gidsOf (sightings md2 c)
      · obtain ⟨cl2, hcl2, _⟩ :=
          (upsert_fold_char n2 g (sightings md2 c) _).2.2 hG1none hin2
        rw [hcl2]
        simp [hin2]
      · have hnone2 : dictGet ((sightings md2 c).foldl (upsertSighting n2)
            ((sightings md1 c).foldl (upsertSighting n1) [])) g = none :=
          (upsert_fold_char n2 g (sightings md2 c) _).2.1 hG1none hin2
        rw [hnone2]
        simp [hin1, hin2]
  · -- objective-type and map-type sets are duplicate-free unions
    intro c hc g cl2 hcl2
    have hG1 : (getTeam (update_match_core t0 md1 w1 n1).2 c).guilds =
        (sightings md1 c).foldl (upsertSighting n1) [] := hg1 c hc
    rw [hg2 c hc, hG1] at hcl2
    by_cases hin1 : g ∈ gidsOf (sightings md1 c)
    · obtain ⟨cl1, hcl1, _, _, _, hty1, hmp1, hty1nd, hmp1nd⟩ :=
        (upsert_fold_char n1 g (sightings md1 c) []).2.2 rfl hin1
      obtain ⟨cl2', hcl2', _, _, _, _, _, hty2, hmp2, hnd1i, hnd2i⟩ :=
        (upsert_fold_char n2 g (sightings md2 c) _).1 cl1 hcl1
      rw [hcl2'] at hcl2
      cases hcl2
      exact ⟨by rw [hty2, hty1], by rw [hmp2, hmp1], hnd1i hty1nd, hnd2i hmp1nd⟩
    · have hG1none : dictGet ((sightings md1 c).foldl (upsertSighting n1) []) g = none :=
        (upsert_fold_char n1 g (sightings md1 c) []).2.1 rfl hin1
      by_cases hin2 : g ∈ gidsOf (sightings md2 c)
      · obtain ⟨cl2', hcl2', _, _, _, hty2, hmp2, hty2nd, hmp2nd⟩ :=
          (upsert_fold_char n2 g (sightings md2 c) _).2.2 hG1none hin2
        rw [hcl2'] at hcl2
        cases hcl2
        obtain ⟨hty0, hmp0⟩ := sightFor_nil_of_not_mem (sightings md1 c) g hin1
        refine ⟨?_, ?_, hty2nd, hmp2nd⟩
        · rw [hty2, hty0]
          simp
        · rw [hmp2, hmp0]
          simp
      · have hnone2 : dictGet ((sightings md2 c).foldl (upsertSighting n2)
            ((sightings md1 c).foldl (upsertSighting n1) [])) g = none :=
          (upsert_fold_char n2 g (sightings md2 c) _).2.1 hG1none hin2
        rw [hnone2] at hcl2
        cases hcl2

/-- Witness for C3 amended: empty starting ledger, two different guild
sightings across the two calls. -/
theorem C3_amended_witness :
    dictGet ([] : Ledger) "1-2" = none ∧
    C3Post [] demoInput demoInput2 none none 5 9 :=
  ⟨rfl, C3_amended [] demoInput demoInput2 none none 5 9 (by simp) (by decide) rfl
    (Or.inl (by decide))⟩

end GW2
